import Mathlib

/-!
PIO driver (rp2-pio): instruction encoder, SPI / I2S FIFO helpers, interrupt plumbing.

A shallow embedding of the parts of the `rp2-pio` package that the verified
properties are about:

* the instruction packing rule of `AssemblerV0` / `AssemblerV1`;
* `SPI.Tx` and `SPI.Transfer` from `piolib/spi.go`;
* `i2sWrite` from `piolib/i2s.go`;
* `irqSet`, `irqSetMask`, `interruptSet` and `validINTEBits` from
  `pio_rp2040.go` and `pio_rp2350.go`.

Machine integers are natural numbers with explicit reduction modulo the width
where a conversion can truncate.  Hardware is an explicit environment of
answers (FIFO status probes, received words) plus an event trace.
-/

namespace Rp2Pio

/-! ## Instruction encoder -/

/-- Conversion to `uint16`. -/
def uint16 (x : Nat) : Nat := x % 2 ^ 16

/-- Conversion to `uint32`. -/
def uint32 (x : Nat) : Nat := x % 2 ^ 32

/-- Conversion to `uint8`. -/
def uint8 (x : Nat) : Nat := x % 2 ^ 8

/-- Modelled from the spec: the assembler configuration `AssemblerV0` (its file is
not among the sources); it carries the side-set bit-width, set once per program. -/
structure AssemblerV0 where
  SidesetBits : Nat
  deriving DecidableEq, Repr

/-- Modelled from the spec: the extended assembler `AssemblerV1` (its file is not
among the sources); same packing rule and bit widths as `AssemblerV0`. -/
structure AssemblerV1 where
  SidesetBits : Nat
  deriving DecidableEq, Repr

/-- Modelled from the spec: the opcode categories selected by the top 3 bits of an
instruction word (the constants are not among the sources; the codes are fixed by
the expected words of `TestAssemblerV0`). -/
inductive Category where
  | jmp | wait | in_ | out | pushPull | mov | irq | set
  deriving DecidableEq, Repr

/-- Modelled from the spec: the 3-bit code of an opcode category. -/
def Category.code : Category → Nat
  | .jmp => 0 | .wait => 1 | .in_ => 2 | .out => 3
  | .pushPull => 4 | .mov => 5 | .irq => 6 | .set => 7

/-- Modelled from the spec: jump predicates (`JmpAlways`, `JmpXZero`, ...). -/
inductive JmpCond where
  | JmpAlways | JmpXZero | JmpXNZeroDec | JmpYZero | JmpYNZeroDec
  | JmpXNotEqualY | JmpPinInput | JmpOSRNotEmpty
  deriving DecidableEq, Repr

/-- Modelled from the spec: selector code of a jump predicate. -/
def JmpCond.code : JmpCond → Nat
  | .JmpAlways => 0 | .JmpXZero => 1 | .JmpXNZeroDec => 2 | .JmpYZero => 3
  | .JmpYNZeroDec => 4 | .JmpXNotEqualY => 5 | .JmpPinInput => 6 | .JmpOSRNotEmpty => 7

/-- Modelled from the spec: destinations of `set`. -/
inductive SetDest where
  | SetDestPins | SetDestX | SetDestY | SetDestPindirs
  deriving DecidableEq, Repr

/-- Modelled from the spec: selector code of a `set` destination. -/
def SetDest.code : SetDest → Nat
  | .SetDestPins => 0 | .SetDestX => 1 | .SetDestY => 2 | .SetDestPindirs => 4

/-- Modelled from the spec: destinations of `out`. -/
inductive OutDest where
  | OutDestPins | OutDestX | OutDestY | OutDestNull | OutDestPindirs
  | OutDestPC | OutDestISR | OutDestExec
  deriving DecidableEq, Repr

/-- Modelled from the spec: selector code of an `out` destination. -/
def OutDest.code : OutDest → Nat
  | .OutDestPins => 0 | .OutDestX => 1 | .OutDestY => 2 | .OutDestNull => 3
  | .OutDestPindirs => 4 | .OutDestPC => 5 | .OutDestISR => 6 | .OutDestExec => 7

/-- Modelled from the spec: sources of `in`. -/
inductive InSrc where
  | InSrcPins | InSrcX | InSrcY | InSrcNull | InSrcISR | InSrcOSR
  deriving DecidableEq, Repr

/-- Modelled from the spec: selector code of an `in` source. -/
def InSrc.code : InSrc → Nat
  | .InSrcPins => 0 | .InSrcX => 1 | .InSrcY => 2 | .InSrcNull => 3
  | .InSrcISR => 6 | .InSrcOSR => 7

/-- Modelled from the spec: destinations of `mov`. -/
inductive MovDest where
  | MovDestPins | MovDestX | MovDestY | MovDestExec | MovDestPC | MovDestISR | MovDestOSR
  deriving DecidableEq, Repr

/-- Modelled from the spec: selector code of a `mov` destination. -/
def MovDest.code : MovDest → Nat
  | .MovDestPins => 0 | .MovDestX => 1 | .MovDestY => 2 | .MovDestExec => 4
  | .MovDestPC => 5 | .MovDestISR => 6 | .MovDestOSR => 7

/-- Modelled from the spec: sources of `mov`. -/
inductive MovSrc where
  | MovSrcPins | MovSrcX | MovSrcY | MovSrcNull | MovSrcStatus | MovSrcISR | MovSrcOSR
  deriving DecidableEq, Repr

/-- Modelled from the spec: selector code of a `mov` source. -/
def MovSrc.code : MovSrc → Nat
  | .MovSrcPins => 0 | .MovSrcX => 1 | .MovSrcY => 2 | .MovSrcNull => 3
  | .MovSrcStatus => 5 | .MovSrcISR => 6 | .MovSrcOSR => 7

/-- Modelled from the spec: an instruction under construction (`instructionV0`, not
among the sources): the word built so far and the assembler that built it. -/
structure instructionV0 where
  instr : Nat
  asm : AssemblerV0
  deriving DecidableEq, Repr

/-- Modelled from the spec: the packing of the category into the top 3 bits and of
two operand fields into the low 8 bits: a 3-bit selector above a 5-bit value. -/
def AssemblerV0.instrArgs (asm : AssemblerV0) (cat : Category) (arg1 arg2 : Nat) :
    instructionV0 :=
  { instr := (cat.code <<< 13) ||| ((arg1 &&& 0x7) <<< 5) ||| (arg2 &&& 0x1f), asm := asm }

/-- Modelled from the spec: `Encode` returns the finished 16-bit word. -/
def instructionV0.Encode (i : instructionV0) : Nat := uint16 i.instr

/-- Modelled from the spec: `Side` puts the side-set value into the high
`SidesetBits` bits of the 5-bit delay/side-set field (bits 12..8). -/
def instructionV0.Side (i : instructionV0) (value : Nat) : instructionV0 :=
  { i with instr := i.instr ||| (value <<< (13 - i.asm.SidesetBits)) }

/-- Modelled from the spec: `Delay` puts the delay cycle count into the low bits of
the 5-bit delay/side-set field (bits 12..8). -/
def instructionV0.Delay (i : instructionV0) (cycles : Nat) : instructionV0 :=
  { i with instr := i.instr ||| (cycles <<< 8) }

/-- Bit of a boolean flag. -/
def bit (b : Bool) : Nat := if b then 1 else 0

/-- Modelled from the spec: `jmp cond, addr`. -/
def AssemblerV0.Jmp (asm : AssemblerV0) (cond : JmpCond) (addr : Nat) : instructionV0 :=
  asm.instrArgs .jmp cond.code addr

/-- Modelled from the spec: `set dest, value` (5-bit unsigned immediate). -/
def AssemblerV0.Set (asm : AssemblerV0) (dest : SetDest) (value : Nat) : instructionV0 :=
  asm.instrArgs .set dest.code value

/-- Modelled from the spec: `out dest, bitCount`. -/
def AssemblerV0.Out (asm : AssemblerV0) (dest : OutDest) (bitCount : Nat) : instructionV0 :=
  asm.instrArgs .out dest.code bitCount

/-- Modelled from the spec: `in src, bitCount`. -/
def AssemblerV0.In (asm : AssemblerV0) (src : InSrc) (bitCount : Nat) : instructionV0 :=
  asm.instrArgs .in_ src.code bitCount

/-- Modelled from the spec: `mov dest, src` (no operation on the moved value). -/
def AssemblerV0.Mov (asm : AssemblerV0) (dest : MovDest) (src : MovSrc) : instructionV0 :=
  asm.instrArgs .mov dest.code src.code

/-- Modelled from the spec: `nop`, assembled as `mov y, y`. -/
def AssemblerV0.Nop (asm : AssemblerV0) : instructionV0 :=
  asm.Mov .MovDestY .MovSrcY

/-- Modelled from the spec: `pull [ifempty] [block]`; bit 7 distinguishes pull from
push inside the shared category. -/
def AssemblerV0.Pull (asm : AssemblerV0) (ifEmpty block : Bool) : instructionV0 :=
  asm.instrArgs .pushPull (4 ||| (bit ifEmpty <<< 1) ||| bit block) 0

/-- Modelled from the spec: `push [iffull] [block]`. -/
def AssemblerV0.Push (asm : AssemblerV0) (ifFull block : Bool) : instructionV0 :=
  asm.instrArgs .pushPull ((bit ifFull <<< 1) ||| bit block) 0

/-- Modelled from the spec: `wait polarity pin, index` (source selector 1 = pin). -/
def AssemblerV0.WaitPin (asm : AssemblerV0) (polarity : Bool) (pin : Nat) : instructionV0 :=
  asm.instrArgs .wait ((bit polarity <<< 2) ||| 1) pin

/-- Modelled from the spec: `irq [rel] nowait index` (set the flag, do not wait). -/
def AssemblerV0.IRQSet (asm : AssemblerV0) (relative : Bool) (irqIndex : Nat) : instructionV0 :=
  asm.instrArgs .irq 0 ((bit relative <<< 4) ||| (irqIndex &&& 0x7))

/-- Modelled from the spec: the base assembler that `AssemblerV1` shares its
instruction forms and packing rule with. -/
def AssemblerV1.v0 (asm : AssemblerV1) : AssemblerV0 := { SidesetBits := asm.SidesetBits }

/-- Modelled from the spec: `jmp` of the extended assembler. -/
def AssemblerV1.Jmp (asm : AssemblerV1) (cond : JmpCond) (addr : Nat) : instructionV0 :=
  asm.v0.Jmp cond addr

/-- Modelled from the spec: `set` of the extended assembler. -/
def AssemblerV1.Set (asm : AssemblerV1) (dest : SetDest) (value : Nat) : instructionV0 :=
  asm.v0.Set dest value

/-- Modelled from the spec: `out` of the extended assembler. -/
def AssemblerV1.Out (asm : AssemblerV1) (dest : OutDest) (bitCount : Nat) : instructionV0 :=
  asm.v0.Out dest bitCount

/-- The `pulsar` program of `TestAssemblerV0` (side-set width 0). -/
def pulsarProgram : List Nat :=
  let asm0 : AssemblerV0 := { SidesetBits := 0 }
  [ (asm0.Set .SetDestPindirs 1).Encode,
    (asm0.Pull false true).Encode,
    (asm0.Mov .MovDestX .MovSrcOSR).Encode,
    ((asm0.Set .SetDestPins 1).Delay 1).Encode,
    (asm0.Set .SetDestPins 0).Encode,
    (asm0.Jmp .JmpXNZeroDec 3).Encode ]

/-- The `spi3w` program of `TestAssemblerV0` (side-set width 1). -/
def spi3wProgram : List Nat :=
  let asm1 : AssemblerV0 := { SidesetBits := 1 }
  [ ((asm1.Out .OutDestPins 1).Side 0).Encode,
    ((asm1.Jmp .JmpXNZeroDec 0).Side 1).Encode,
    ((asm1.Jmp .JmpYZero 7).Side 0).Encode,
    ((asm1.Set .SetDestPindirs 0).Side 0).Encode,
    (asm1.Nop.Side 0).Encode,
    ((asm1.In .InSrcPins 1).Side 1).Encode,
    ((asm1.Jmp .JmpYNZeroDec 5).Side 0).Encode,
    ((asm1.WaitPin true 0).Side 0).Encode,
    ((asm1.IRQSet false 0).Side 0).Encode ]

/-- The forms of the `ws2812bfourpixels` program of `TestAssemblerV1` that both
assemblers have (instructions 1 to 8). -/
def ws2812bSharedProgram : List Nat :=
  let asm1 : AssemblerV1 := { SidesetBits := 1 }
  [ (((asm1.Out .OutDestX 1).Side 0).Delay 2).Encode,
    (((asm1.Jmp .JmpXZero 4).Side 1).Delay 1).Encode,
    (((asm1.Jmp .JmpOSRNotEmpty 1).Side 1).Delay 4).Encode,
    (((asm1.Jmp .JmpOSRNotEmpty 1).Side 0).Delay 4).Encode,
    ((asm1.Jmp .JmpYNZeroDec 0).Side 0).Encode,
    (((asm1.Set .SetDestX 31).Side 0).Delay 15).Encode,
    (((asm1.Set .SetDestY 3).Side 0).Delay 15).Encode,
    (((asm1.Jmp .JmpXNZeroDec 7).Side 0).Delay 15).Encode ]

/-! ## State machine FIFO primitives -/

/-- One observable action on the state machine handle or the scheduler. -/
inductive Event where
  | isTxFIFOFull (answer : Bool)
  | isRxFIFOEmpty (answer : Bool)
  | txPut (data : Nat)
  | rxGet (data : Nat)
  | gosched
  deriving DecidableEq, Repr

/-- The hardware as the driver sees it: the answer of the `k`-th `IsTxFIFOFull`
probe, of the `k`-th `IsRxFIFOEmpty` probe, and the word the `k`-th `RxGet`
returns (counting from 0). -/
structure FIFOEnv where
  txFull : Nat → Bool
  rxEmpty : Nat → Bool
  rxWord : Nat → Nat

/-- Modelled from the spec: the state machine handle `pio.StateMachine` (its file is
not among the sources), reduced to what the FIFO helpers use: how many probes and
reads were made so far, and the trace of every call in order. -/
structure StateMachine where
  txProbes : Nat
  rxProbes : Nat
  rxGets : Nat
  trace : List Event
  deriving DecidableEq, Repr

/-- A fresh handle: nothing probed, nothing transferred. -/
def StateMachine.fresh : StateMachine :=
  { txProbes := 0, rxProbes := 0, rxGets := 0, trace := [] }

/-- Modelled from the spec: `IsTxFIFOFull`, a non-blocking status probe. -/
def StateMachine.IsTxFIFOFull (env : FIFOEnv) (sm : StateMachine) : Bool × StateMachine :=
  (env.txFull sm.txProbes,
   { sm with txProbes := sm.txProbes + 1,
             trace := sm.trace ++ [Event.isTxFIFOFull (env.txFull sm.txProbes)] })

/-- Modelled from the spec: `IsRxFIFOEmpty`, a non-blocking status probe. -/
def StateMachine.IsRxFIFOEmpty (env : FIFOEnv) (sm : StateMachine) : Bool × StateMachine :=
  (env.rxEmpty sm.rxProbes,
   { sm with rxProbes := sm.rxProbes + 1,
             trace := sm.trace ++ [Event.isRxFIFOEmpty (env.rxEmpty sm.rxProbes)] })

/-- Modelled from the spec: `TxPut`, pushes one 32-bit word; never blocks. -/
def StateMachine.TxPut (sm : StateMachine) (data : Nat) : StateMachine :=
  { sm with trace := sm.trace ++ [Event.txPut data] }

/-- Modelled from the spec: `RxGet`, pops one 32-bit word; never blocks. -/
def StateMachine.RxGet (env : FIFOEnv) (sm : StateMachine) : Nat × StateMachine :=
  (uint32 (env.rxWord sm.rxGets),
   { sm with rxGets := sm.rxGets + 1,
             trace := sm.trace ++ [Event.rxGet (uint32 (env.rxWord sm.rxGets))] })

/-- The scheduler yield `gosched()`. -/
def StateMachine.gosched (sm : StateMachine) : StateMachine :=
  { sm with trace := sm.trace ++ [Event.gosched] }

/-- The words pushed by `TxPut`, in order. -/
def txPuts : List Event → List Nat
  | [] => []
  | Event.txPut d :: es => d :: txPuts es
  | _ :: es => txPuts es

/-- The words returned by `RxGet`, in order. -/
def rxGets : List Event → List Nat
  | [] => []
  | Event.rxGet d :: es => d :: rxGets es
  | _ :: es => rxGets es

/-- Number of FIFO status probes in a trace. -/
def probes : List Event → Nat
  | [] => 0
  | Event.isTxFIFOFull _ :: es => probes es + 1
  | Event.isRxFIFOEmpty _ :: es => probes es + 1
  | _ :: es => probes es

/-! ## `piolib/spi.go` -/

/-- The two errors `SPI.Tx` / `SPI.Transfer` create with `errors.New`. -/
inductive SPIError where
  | lengthsNotEqual
  | timeout
  deriving DecidableEq, Repr

/-- How a call ends: it returns an error value (`none` is `nil`), or the run time
stops it on a slice index outside the slice. -/
inductive Outcome where
  | returned (err : Option SPIError)
  | indexOutOfRange
  deriving DecidableEq, Repr

/-- The variables of `SPI.Tx` while its loop runs.  `iterations` and `idle` are
counters of the model: loop bodies run so far, and those among them that made
neither a `TxPut` nor an `RxGet`. -/
structure TxState where
  sm : StateMachine
  r : List Nat
  rxRemain : Nat
  txRemain : Nat
  iterations : Nat
  idle : Nat
  deriving DecidableEq, Repr

/-- How a part of the loop body of `SPI.Tx` ends: it goes on with a new state and
the `stall` flag, or the run time stops the call on a slice index outside the slice
(the state then holds the calls made before that). -/
inductive TxStep where
  | next (st : TxState) (stall : Bool)
  | fault (st : TxState)
  deriving DecidableEq, Repr

/-- First `if` of the loop body of `SPI.Tx`: push the next byte of `w` when the
TX FIFO has room. -/
def SPI.txSend (env : FIFOEnv) (w : List Nat) (st : TxState) : TxStep :=
  if st.txRemain ≠ 0 then
    let (full, sm) := st.sm.IsTxFIFOFull env
    if !full then
      match w[w.length - st.txRemain]? with
      | none => TxStep.fault { st with sm := sm }
      | some c =>
        TxStep.next { st with sm := sm.TxPut (uint32 c), txRemain := st.txRemain - 1 } false
    else TxStep.next { st with sm := sm } true
  else TxStep.next st true

/-- Second `if` of the loop body of `SPI.Tx`: its guard reads `txRemain`, as in the
source, and it stores the received byte at `len(r)-rxRemain`; `RxGet` is called
before the store is attempted. -/
def SPI.txRecv (env : FIFOEnv) (st : TxState) (stall : Bool) : TxStep :=
  if st.txRemain ≠ 0 then
    let (empty, sm) := st.sm.IsRxFIFOEmpty env
    if !empty then
      let (v, sm2) := sm.RxGet env
      if st.r.length - st.rxRemain < st.r.length then
        TxStep.next { st with sm := sm2, r := st.r.set (st.r.length - st.rxRemain) (uint8 v),
                              rxRemain := st.rxRemain - 1 } false
      else TxStep.fault { st with sm := sm2 }
    else TxStep.next { st with sm := sm } stall
  else TxStep.next st stall

/-- One loop body of `SPI.Tx` up to `retries--`. -/
def SPI.txBody (env : FIFOEnv) (w : List Nat) (st : TxState) : TxStep :=
  match SPI.txSend env w st with
  | TxStep.fault s => TxStep.fault s
  | TxStep.next st1 stall1 =>
    match SPI.txRecv env st1 stall1 with
    | TxStep.fault s => TxStep.fault s
    | TxStep.next st2 stall2 =>
      TxStep.next { st2 with iterations := st2.iterations + 1,
                             idle := if stall2 then st2.idle + 1 else st2.idle } stall2

/-- The loop of `SPI.Tx`, by recursion on `retries` (an `int8` that starts at 32 and
only counts down, so it never wraps): after the body `retries--`, then
`retries <= 0` returns the timeout, else a stalled iteration yields. -/
def SPI.txLoop (env : FIFOEnv) (w : List Nat) : Nat → TxState → TxState × Outcome
  | 0, st =>
    if st.rxRemain ≠ 0 ∨ st.txRemain ≠ 0 then
      match SPI.txBody env w st with
      | TxStep.fault s => (s, Outcome.indexOutOfRange)
      | TxStep.next st2 _ => (st2, Outcome.returned (some SPIError.timeout))
    else (st, Outcome.returned none)
  | retries + 1, st =>
    if st.rxRemain ≠ 0 ∨ st.txRemain ≠ 0 then
      match SPI.txBody env w st with
      | TxStep.fault s => (s, Outcome.indexOutOfRange)
      | TxStep.next st2 stall =>
        if retries ≤ 0 then (st2, Outcome.returned (some SPIError.timeout))
        else if stall then SPI.txLoop env w retries { st2 with sm := st2.sm.gosched }
        else SPI.txLoop env w retries st2
    else (st, Outcome.returned none)

/-- `SPI.Tx(w, r)`: the final state (handle, `r`, counters) and how the call ended. -/
def SPI.Tx (env : FIFOEnv) (sm : StateMachine) (w r : List Nat) : TxState × Outcome :=
  let st : TxState :=
    { sm := sm, r := r, rxRemain := r.length, txRemain := w.length, iterations := 0, idle := 0 }
  if st.rxRemain ≠ st.txRemain then
    (st, Outcome.returned (some SPIError.lengthsNotEqual))
  else SPI.txLoop env w 32 st

/-- The variables of `SPI.Transfer` while its loop runs; `iterations` counts the
loop bodies run so far. -/
structure TransferState where
  sm : StateMachine
  rx : Nat
  waitTx : Bool
  waitRx : Bool
  iterations : Nat
  deriving DecidableEq, Repr

/-- One loop body of `SPI.Transfer` up to `retries--`. -/
def SPI.transferBody (env : FIFOEnv) (c : Nat) (st : TransferState) : TransferState :=
  let st1 : TransferState :=
    if st.waitTx then
      let (full, sm) := st.sm.IsTxFIFOFull env
      if !full then { st with sm := sm.TxPut (uint32 c), waitTx := false }
      else { st with sm := sm }
    else st
  let st2 : TransferState :=
    if st1.waitRx then
      let (empty, sm) := st1.sm.IsRxFIFOEmpty env
      if !empty then
        let (v, sm2) := sm.RxGet env
        { st1 with sm := sm2, rx := uint8 v, waitRx := false }
      else { st1 with sm := sm }
    else st1
  { st2 with iterations := st2.iterations + 1 }

/-- The loop of `SPI.Transfer`, by recursion on `retries` (starts at 16, counts
down).  Returns the final state and the pair `(rx, err)` the call returns. -/
def SPI.transferLoop (env : FIFOEnv) (c : Nat) :
    Nat → TransferState → TransferState × Nat × Option SPIError
  | 0, st =>
    if st.waitTx ∨ st.waitRx then (SPI.transferBody env c st, 0, some SPIError.timeout)
    else (st, st.rx, none)
  | retries + 1, st =>
    if st.waitTx ∨ st.waitRx then
      if retries ≤ 0 then (SPI.transferBody env c st, 0, some SPIError.timeout)
      else SPI.transferLoop env c retries (SPI.transferBody env c st)
    else (st, st.rx, none)

/-- `SPI.Transfer(c)`. -/
def SPI.Transfer (env : FIFOEnv) (sm : StateMachine) (c : Nat) :
    TransferState × Nat × Option SPIError :=
  SPI.transferLoop env c 16
    { sm := sm, rx := 0, waitTx := true, waitRx := true, iterations := 0 }

/-! ## `piolib/i2s.go` -/

/-- The error value `errBusy` of the package. -/
inductive I2SError where
  | errBusy
  deriving DecidableEq, Repr

/-- The `I2S` handle: its state machine and the `writing` flag. -/
structure I2S where
  sm : StateMachine
  writing : Bool
  deriving DecidableEq, Repr

/-- The variables of `i2sWrite` while its loop runs; `iterations` counts the loop
bodies run so far. -/
structure I2SLoopState where
  i2s : I2S
  i : Nat
  iterations : Nat
  deriving DecidableEq, Repr

/-- Another context (interrupt handler, other task) may clear `i2s.writing` at any
time; `cancel k` says that it does so before loop body number `k` reads the flag. -/
def I2SLoopState.interfere (cancel : Nat → Bool) (st : I2SLoopState) : I2SLoopState :=
  if cancel st.iterations then { st with i2s := { st.i2s with writing := false } } else st

/-- The loop of `i2sWrite` and the statements after it.  The source loop has no
bound of its own, so the model runs at most `fuel` loop bodies and answers `none`
when the loop is still running after them. -/
def i2sLoop (env : FIFOEnv) (cancel : Nat → Bool) (b : List Nat) :
    Nat → I2SLoopState → Option (I2SLoopState × Nat × Option I2SError)
  | 0, st =>
    if st.i < b.length then none
    else some ({ st with i2s := { st.i2s with writing := false } }, b.length, none)
  | fuel + 1, st =>
    if h : st.i < b.length then
      let st1 := st.interfere cancel
      let (full, sm) := st1.i2s.sm.IsTxFIFOFull env
      if full then
        i2sLoop env cancel b fuel
          { st1 with i2s := { st1.i2s with sm := sm.gosched }, iterations := st1.iterations + 1 }
      else if !st1.i2s.writing then
        some ({ st1 with i2s := { st1.i2s with sm := sm }, iterations := st1.iterations + 1 },
              st1.i, none)
      else
        i2sLoop env cancel b fuel
          { i2s := { st1.i2s with sm := sm.TxPut (uint32 b[st.i]) }, i := st1.i + 1,
            iterations := st1.iterations + 1 }
    else some ({ st with i2s := { st.i2s with writing := false } }, b.length, none)

/-- `i2sWrite(i2s, b)` run for at most `fuel` loop bodies: the final handle and
counters and the pair `(n, err)` it returns, or `none` when it is still in its loop. -/
def i2sWrite (env : FIFOEnv) (cancel : Nat → Bool) (fuel : Nat) (i2s : I2S) (b : List Nat) :
    Option (I2SLoopState × Nat × Option I2SError) :=
  if b.length = 0 then some ({ i2s := i2s, i := 0, iterations := 0 }, 0, none)
  else if i2s.writing then
    some ({ i2s := i2s, i := 0, iterations := 0 }, 0, some I2SError.errBusy)
  else i2sLoop env cancel b fuel { i2s := { i2s with writing := true }, i := 0, iterations := 0 }

/-- `WriteMono(b)`. -/
def I2S.WriteMono (env : FIFOEnv) (cancel : Nat → Bool) (fuel : Nat) (i2s : I2S) (b : List Nat) :
    Option (I2SLoopState × Nat × Option I2SError) :=
  i2sWrite env cancel fuel i2s b

/-- `WriteStereo(b)`. -/
def I2S.WriteStereo (env : FIFOEnv) (cancel : Nat → Bool) (fuel : Nat) (i2s : I2S)
    (b : List Nat) : Option (I2SLoopState × Nat × Option I2SError) :=
  i2sWrite env cancel fuel i2s b

/-! ## Interrupt controller writes (`pio_rp2040.go`, `pio_rp2350.go`) -/

/-- The interrupt controller registers the two variants write. -/
inductive NVICReg where
  | ICPR | ISER | ICER
  | ICPR0 | ISER0 | ICER0
  | ICPR1 | ISER1 | ICER1
  deriving DecidableEq, Repr

/-- What the interrupt set-up code does to the outside: a register store
`reg.Set(value)`, or `interrupt.New(id, handleInterrupt).Enable()` of the run time. -/
inductive IrqEvent where
  | write (reg : NVICReg) (value : Nat)
  | interruptNewEnable (id : Nat)
  deriving DecidableEq, Repr

/-- Go's bit clear `m &^ v` (AND NOT). -/
def bitClear (m v : Nat) : Nat := Nat.bitwise (fun a b => a && !b) m v

namespace RP2040

/-- Constant `validINTEBits` of `pio_rp2040.go`. -/
def validINTEBits : Nat := 0x0FFF

/-- Constant `_NUMIRQ` of `pio_rp2040.go`. -/
def _NUMIRQ : Nat := 32

/-- `irqSetMask(mask, enabled)` of `pio_rp2040.go`: the register stores it makes. -/
def irqSetMask (mask : Nat) (enabled : Bool) : List IrqEvent :=
  if enabled then
    [IrqEvent.write NVICReg.ICPR mask, IrqEvent.write NVICReg.ISER mask]
  else
    [IrqEvent.write NVICReg.ICER mask]

/-- `irqSet(num, enabled)` of `pio_rp2040.go`. -/
def irqSet (num : Nat) (enabled : Bool) : List IrqEvent :=
  if num ≥ _NUMIRQ then []
  else irqSetMask (uint32 (1 <<< num)) enabled

/-- `interruptSet(nblock, irq)` of `pio_rp2040.go`; `vec b l` is the vector number
`rp.IRQ_PIOb_IRQ_l` of the device package. -/
def interruptSet (vec : Nat → Nat → Nat) (nblock irq : Nat) : List IrqEvent :=
  if nblock = 0 ∧ irq = 0 then
    IrqEvent.interruptNewEnable (vec 0 0) :: irqSet (vec 0 0) true
  else if nblock = 0 ∧ irq = 1 then
    IrqEvent.interruptNewEnable (vec 0 1) :: irqSet (vec 0 1) true
  else if nblock = 1 ∧ irq = 0 then
    IrqEvent.interruptNewEnable (vec 1 0) :: irqSet (vec 1 0) true
  else if nblock = 1 ∧ irq = 1 then
    IrqEvent.interruptNewEnable (vec 1 1) :: irqSet (vec 1 1) true
  else []

end RP2040

namespace RP2350

/-- Constant `validINTEBits` of `pio_rp2350.go`. -/
def validINTEBits : Nat := 0xFFFF

/-- Constant `_NUMIRQ` of `pio_rp2350.go`. -/
def _NUMIRQ : Nat := 52

/-- `irqSetMask(n, mask, enabled)` of `pio_rp2350.go`: the register stores it makes. -/
def irqSetMask (n mask : Nat) (enabled : Bool) : List IrqEvent :=
  let icpr := if n > 0 then NVICReg.ICPR1 else NVICReg.ICPR0
  let iser := if n > 0 then NVICReg.ISER1 else NVICReg.ISER0
  let icer := if n > 0 then NVICReg.ICER1 else NVICReg.ICER0
  if enabled then
    [IrqEvent.write icpr mask, IrqEvent.write iser mask]
  else
    [IrqEvent.write icer mask]

/-- `irqSet(num, enabled)` of `pio_rp2350.go`. -/
def irqSet (num : Nat) (enabled : Bool) : List IrqEvent :=
  if num ≥ _NUMIRQ then []
  else irqSetMask (num / 32) (uint32 (1 <<< num)) enabled

/-- `interruptSet(nblock, irq)` of `pio_rp2350.go`; `vec b l` is the vector number
`rp.IRQ_PIOb_IRQ_l` of the device package. -/
def interruptSet (vec : Nat → Nat → Nat) (nblock irq : Nat) : List IrqEvent :=
  if nblock = 0 ∧ irq = 0 then
    IrqEvent.interruptNewEnable (vec 0 0) :: irqSet (vec 0 0) true
  else if nblock = 0 ∧ irq = 1 then
    IrqEvent.interruptNewEnable (vec 0 1) :: irqSet (vec 0 1) true
  else if nblock = 1 ∧ irq = 0 then
    IrqEvent.interruptNewEnable (vec 1 0) :: irqSet (vec 1 0) true
  else if nblock = 1 ∧ irq = 1 then
    IrqEvent.interruptNewEnable (vec 1 1) :: irqSet (vec 1 1) true
  else if nblock = 2 ∧ irq = 0 then
    IrqEvent.interruptNewEnable (vec 2 0) :: irqSet (vec 2 0) true
  else if nblock = 2 ∧ irq = 1 then
    IrqEvent.interruptNewEnable (vec 2 1) :: irqSet (vec 2 1) true
  else []

end RP2350

/-- How many of the `n` probes `IsTxFIFOFull` number `start`, ..., `start+n-1` answer
"not full". -/
def notFullCount (env : FIFOEnv) : Nat → Nat → Nat
  | _, 0 => 0
  | start, n + 1 => (if env.txFull start then 0 else 1) + notFullCount env (start + 1) n

/-! ## Environments used in concrete runs -/

/-- Both FIFOs always ready: TX never full, RX never empty, every received word is
`0x5A`. -/
def envReady : FIFOEnv :=
  { txFull := fun _ => false, rxEmpty := fun _ => false, rxWord := fun _ => 0x5A }

/-- A stuck state machine: TX always full, RX always empty. -/
def envStuck : FIFOEnv :=
  { txFull := fun _ => true, rxEmpty := fun _ => true, rxWord := fun _ => 0 }

/-- Nobody clears the `writing` flag. -/
def noCancel : Nat → Bool := fun _ => false

/-- The TX FIFO has room at the first probe and is full from then on. -/
def envFullAfterFirst : FIFOEnv :=
  { txFull := fun k => decide (1 ≤ k), rxEmpty := fun _ => true, rxWord := fun _ => 0 }

/-- The TX FIFO is full at probe number 1 only. -/
def envFullOnce : FIFOEnv :=
  { txFull := fun k => decide (k = 1), rxEmpty := fun _ => true, rxWord := fun _ => 0 }

/-- Another context clears the `writing` flag before loop body number 1, that is
right after the first word was pushed. -/
def cancelBeforeSecond : Nat → Bool := fun k => decide (k = 1)

/-! ## Block control register (`pio_rp2350.go`) -/

/-- Modelled from the spec: `Register32.ReplaceBits(value, mask, pos)` of the run-time
library (not among the sources), on the register content `old`: it stores
`(old AND NOT (mask << pos)) OR (value << pos)` in 32-bit arithmetic.  The result is
the new register content. -/
def ReplaceBits (old value mask pos : Nat) : Nat :=
  uint32 (bitClear old (uint32 (mask <<< pos)) ||| uint32 (value <<< pos))

/-- The pair of constants `rp.PIO0_CTRL_<field>_Msk` and `rp.PIO0_CTRL_<field>_Pos`
that the device package gives for a field of the CTRL register. -/
structure CtrlField where
  Msk : Nat
  Pos : Nat
  deriving DecidableEq, Repr

/-- The content of the 4-bit field at bit position `pos` of a register value. -/
def field4 (pos x : Nat) : Nat := (x >>> pos) &&& 0xF

/-- The device-package constants of a 4-bit field at bit position `pos`: the mask is
the field's mask in place, `0xF << pos`. -/
def CtrlField.inPlace (pos : Nat) : CtrlField := { Msk := 0xF <<< pos, Pos := pos }

/-- The constants `rp.PIO0_CTRL_NEXT_PIO_MASK_Msk` and `_Pos` on RP2350 (CTRL bits
23:20); the device package is not among the sources. -/
def NEXT_PIO_MASK : CtrlField := { Msk := 0x00F00000, Pos := 20 }

/-- The constants `rp.PIO0_CTRL_PREV_PIO_MASK_Msk` and `_Pos` on RP2350 (CTRL bits
19:16); the device package is not among the sources. -/
def PREV_PIO_MASK : CtrlField := { Msk := 0x000F0000, Pos := 16 }

/-- `SetNextPIOMask(mask)` of `pio_rp2350.go` on the CTRL content `ctrl`; `fld` holds
the two device constants it passes to `ReplaceBits`. -/
def RP2350.SetNextPIOMask (fld : CtrlField) (ctrl mask : Nat) : Nat :=
  ReplaceBits ctrl mask fld.Msk fld.Pos

/-- `SetPrevPIOMask(mask)` of `pio_rp2350.go` on the CTRL content `ctrl`; `fld` holds
the two device constants it passes to `ReplaceBits`. -/
def RP2350.SetPrevPIOMask (fld : CtrlField) (ctrl mask : Nat) : Nat :=
  ReplaceBits ctrl mask fld.Msk fld.Pos

/-- The TX FIFO is always full while the RX FIFO always holds a word (`0x5A`). -/
def envTxFullRxReady : FIFOEnv :=
  { txFull := fun _ => true, rxEmpty := fun _ => false, rxWord := fun _ => 0x5A }

/-! ## Theorems: instruction encoder -/

/-- Five-way bitwise OR regrouped so that the fields appear from the top bit down. -/
theorem or_chain_reorder (A B C S D : Nat) :
    A ||| B ||| C ||| S ||| D = A ||| (S ||| (D ||| (B ||| C))) := by
  apply Nat.eq_of_testBit_eq
  intro i
  simp only [Nat.testBit_or]
  cases A.testBit i <;> cases B.testBit i <;> cases C.testBit i <;> cases S.testBit i <;>
    cases D.testBit i <;> rfl

/-- The OR of the five fields is their sum: no two fields share a bit. -/
theorem packed_value (c a1 a2 w s d : Nat) (h1 : a1 < 8) (h2 : a2 < 32)
    (hw : w ≤ 5) (hs : s < 2 ^ w) (hd : d < 2 ^ (5 - w)) :
    c <<< 13 ||| a1 <<< 5 ||| a2 ||| s <<< (13 - w) ||| d <<< 8
      = c * 2 ^ 13 + s * 2 ^ (13 - w) + d * 2 ^ 8 + a1 * 2 ^ 5 + a2 := by
  rw [or_chain_reorder]
  simp only [Nat.shiftLeft_eq]
  have e1 : a1 * 2 ^ 5 ||| a2 = a1 * 2 ^ 5 + a2 := by
    rw [Nat.mul_comm, Nat.mul_add_lt_is_or (by omega)]
  have b1 : a1 * 2 ^ 5 + a2 < 2 ^ 8 := by omega
  have e2 : d * 2 ^ 8 ||| (a1 * 2 ^ 5 + a2) = d * 2 ^ 8 + (a1 * 2 ^ 5 + a2) := by
    rw [Nat.mul_comm, Nat.mul_add_lt_is_or b1]
  have b2 : d * 2 ^ 8 + (a1 * 2 ^ 5 + a2) < 2 ^ (13 - w) := by
    interval_cases w <;> simp at hd ⊢ <;> omega
  have e3 : s * 2 ^ (13 - w) ||| (d * 2 ^ 8 + (a1 * 2 ^ 5 + a2))
      = s * 2 ^ (13 - w) + (d * 2 ^ 8 + (a1 * 2 ^ 5 + a2)) := by
    rw [Nat.mul_comm, Nat.mul_add_lt_is_or b2]
  have b3 : s * 2 ^ (13 - w) + (d * 2 ^ 8 + (a1 * 2 ^ 5 + a2)) < 2 ^ 13 := by
    interval_cases w <;> simp at hs hd ⊢ <;> omega
  have e4 : c * 2 ^ 13 ||| (s * 2 ^ (13 - w) + (d * 2 ^ 8 + (a1 * 2 ^ 5 + a2)))
      = c * 2 ^ 13 + (s * 2 ^ (13 - w) + (d * 2 ^ 8 + (a1 * 2 ^ 5 + a2))) := by
    rw [Nat.mul_comm, Nat.mul_add_lt_is_or b3]
  rw [e1, e2, e3, e4]
  omega

/-- Every category code fits the top 3 bits. -/
theorem Category.code_lt (cat : Category) : cat.code < 8 := by
  cases cat <;> decide

/-- The word of an instruction with side-set value `s` and delay `d`, as a sum of
its fields. -/
theorem encode_value (asm : AssemblerV0) (cat : Category) (arg1 arg2 s d : Nat)
    (hw : asm.SidesetBits ≤ 5) (hs : s < 2 ^ asm.SidesetBits)
    (hd : d < 2 ^ (5 - asm.SidesetBits)) :
    (((asm.instrArgs cat arg1 arg2).Side s).Delay d).Encode
      = cat.code * 2 ^ 13 + s * 2 ^ (13 - asm.SidesetBits) + d * 2 ^ 8
        + (arg1 % 8) * 2 ^ 5 + arg2 % 32 := by
  have m1 : arg1 &&& 0x7 = arg1 % 8 := Nat.and_pow_two_sub_one_eq_mod arg1 3
  have m2 : arg2 &&& 0x1f = arg2 % 32 := Nat.and_pow_two_sub_one_eq_mod arg2 5
  have l1 : arg1 % 8 < 8 := Nat.mod_lt _ (by decide)
  have l2 : arg2 % 32 < 32 := Nat.mod_lt _ (by decide)
  have hc := cat.code_lt
  simp only [instructionV0.Encode, instructionV0.Delay, instructionV0.Side,
    AssemblerV0.instrArgs, uint16, m1, m2]
  rw [packed_value cat.code (arg1 % 8) (arg2 % 32) asm.SidesetBits s d l1 l2 hw hs hd]
  apply Nat.mod_eq_of_lt
  generalize asm.SidesetBits = w at hw hs hd
  interval_cases w <;> simp at hs hd ⊢ <;> omega

/-- C1 (packing rule, modelled from the spec).  For side-set width `w ≤ 5`, a
side-set value `s < 2^w` and a delay `d < 2^(5-w)`, the word of an instruction built
with `.Side(s).Delay(d)` has the opcode category in its top 3 bits, `s` in the high
`w` bits and `d` in the low `5-w` bits of bits 12..8, and the operand of the
instruction in its low 8 bits; `.Side(0)` and `.Delay(0)` change nothing, so leaving
them out gives the fields 0.  The `pulsar` sequence (width 0), the `spi3w` sequence
(width 1) and the shared forms of the `AssemblerV1` test program assemble to the
expected words. -/
theorem encode_packing_rule (asm : AssemblerV0) (cat : Category) (arg1 arg2 s d : Nat)
    (hw : asm.SidesetBits ≤ 5) (hs : s < 2 ^ asm.SidesetBits)
    (hd : d < 2 ^ (5 - asm.SidesetBits)) :
    ((((asm.instrArgs cat arg1 arg2).Side s).Delay d).Encode / 2 ^ 13 = cat.code
      ∧ ((((asm.instrArgs cat arg1 arg2).Side s).Delay d).Encode / 2 ^ 8) % 2 ^ 5
          = s * 2 ^ (5 - asm.SidesetBits) + d
      ∧ (((asm.instrArgs cat arg1 arg2).Side s).Delay d).Encode % 2 ^ 8
          = (asm.instrArgs cat arg1 arg2).Encode % 2 ^ 8
      ∧ (asm.instrArgs cat arg1 arg2).Encode % 2 ^ 8 = (arg1 % 8) * 2 ^ 5 + arg2 % 32
      ∧ (asm.instrArgs cat arg1 arg2).Side 0 = asm.instrArgs cat arg1 arg2
      ∧ (asm.instrArgs cat arg1 arg2).Delay 0 = asm.instrArgs cat arg1 arg2)
    ∧ pulsarProgram = [0xe081, 0x80a0, 0xa027, 0xe101, 0xe000, 0x0043]
    ∧ spi3wProgram = [0x6001, 0x1040, 0x0067, 0xe080, 0xa042, 0x5001, 0x0085, 0x20a0, 0xc000]
    ∧ ws2812bSharedProgram
        = [0x6221, 0x1124, 0x14e1, 0x04e1, 0x0080, 0xef3f, 0xef43, 0x0f47] := by
  have hv := encode_value asm cat arg1 arg2 s d hw hs hd
  have hside0 : (asm.instrArgs cat arg1 arg2).Side 0 = asm.instrArgs cat arg1 arg2 := by
    simp [instructionV0.Side]
  have hdelay0 : (asm.instrArgs cat arg1 arg2).Delay 0 = asm.instrArgs cat arg1 arg2 := by
    simp [instructionV0.Delay]
  have hbase : (asm.instrArgs cat arg1 arg2).Encode
      = cat.code * 2 ^ 13 + (arg1 % 8) * 2 ^ 5 + arg2 % 32 := by
    have h0 := encode_value asm cat arg1 arg2 0 0 hw (by positivity) (by positivity)
    rw [hside0, hdelay0] at h0
    rw [h0]; simp
  have l1 : arg1 % 8 < 8 := Nat.mod_lt _ (by decide)
  have l2 : arg2 % 32 < 32 := Nat.mod_lt _ (by decide)
  have hc := cat.code_lt
  refine ⟨⟨?_, ?_, ?_, ?_, hside0, hdelay0⟩, by decide, by decide, by decide⟩
  · rw [hv]
    generalize asm.SidesetBits = w at hw hs hd
    interval_cases w <;> simp at hs hd ⊢ <;> omega
  · rw [hv]
    generalize asm.SidesetBits = w at hw hs hd
    interval_cases w <;> simp at hs hd ⊢ <;> omega
  · rw [hv, hbase]
    generalize asm.SidesetBits = w at hw hs hd
    interval_cases w <;> simp at hs hd ⊢ <;> omega
  · rw [hbase]; omega

/-- The packing rule at `jmp x--, 0 side 1` with side-set width 1: the word is
`0x1040`, category 0, delay/side-set field `0b10000`. -/
theorem encode_packing_rule_witness :
    ((1 : Nat) ≤ 5 ∧ 1 < 2 ^ 1 ∧ 0 < 2 ^ (5 - 1))
    ∧ ((((({ SidesetBits := 1 } : AssemblerV0).instrArgs Category.jmp 2 0).Side 1).Delay 0).Encode
          / 2 ^ 13 = Category.jmp.code) :=
  ⟨by decide,
   (encode_packing_rule { SidesetBits := 1 } Category.jmp 2 0 1 0
      (by decide) (by decide) (by decide)).1.1⟩

/-! ## Theorems: interrupt plumbing -/

/-- For a vector number below 32 the mask `uint32(1 << num)` is the single bit
`2^num`. -/
theorem uint32_one_shiftLeft (num : Nat) (h : num < 32) : uint32 (1 <<< num) = 2 ^ num := by
  simp only [uint32, Nat.shiftLeft_eq, Nat.one_mul]
  apply Nat.mod_eq_of_lt
  exact Nat.pow_lt_pow_right (by decide) h

/-- C5.  `irqSetMask` with `enabled = true` stores the mask to clear-pending and then
to set-enable and nothing else; with `enabled = false` it makes the single store to
clear-enable.  On RP2350 the registers are those of bank 0 for `n = 0` and of bank 1
for `n > 0`.  `interruptSet` on a valid (block, line) whose vector number is below 32
calls `interrupt.New(..).Enable()` and then `irqSet`, whose clear-pending store of the
vector's bit comes before its set-enable store. -/
theorem irq_enable_clears_pending_first :
    (∀ mask, RP2040.irqSetMask mask true
        = [IrqEvent.write NVICReg.ICPR mask, IrqEvent.write NVICReg.ISER mask])
    ∧ (∀ mask, RP2040.irqSetMask mask false = [IrqEvent.write NVICReg.ICER mask])
    ∧ (∀ mask, RP2350.irqSetMask 0 mask true
        = [IrqEvent.write NVICReg.ICPR0 mask, IrqEvent.write NVICReg.ISER0 mask])
    ∧ (∀ mask, RP2350.irqSetMask 0 mask false = [IrqEvent.write NVICReg.ICER0 mask])
    ∧ (∀ n mask, 0 < n → RP2350.irqSetMask n mask true
        = [IrqEvent.write NVICReg.ICPR1 mask, IrqEvent.write NVICReg.ISER1 mask])
    ∧ (∀ n mask, 0 < n → RP2350.irqSetMask n mask false = [IrqEvent.write NVICReg.ICER1 mask])
    ∧ (∀ (vec : Nat → Nat → Nat) (nblock irq : Nat), nblock < 2 → irq < 2 →
        vec nblock irq < 32 →
        RP2040.interruptSet vec nblock irq
          = [IrqEvent.interruptNewEnable (vec nblock irq),
             IrqEvent.write NVICReg.ICPR (2 ^ vec nblock irq),
             IrqEvent.write NVICReg.ISER (2 ^ vec nblock irq)])
    ∧ (∀ (vec : Nat → Nat → Nat) (nblock irq : Nat), nblock < 3 → irq < 2 →
        vec nblock irq < 32 →
        RP2350.interruptSet vec nblock irq
          = [IrqEvent.interruptNewEnable (vec nblock irq),
             IrqEvent.write NVICReg.ICPR0 (2 ^ vec nblock irq),
             IrqEvent.write NVICReg.ISER0 (2 ^ vec nblock irq)]) := by
  refine ⟨fun _ => rfl, fun _ => rfl, fun _ => rfl, fun _ => rfl, ?_, ?_, ?_, ?_⟩
  · intro n mask hn
    simp [RP2350.irqSetMask, hn]
  · intro n mask hn
    simp [RP2350.irqSetMask, hn]
  · intro vec nblock irq hb hl hv
    have hm := uint32_one_shiftLeft _ hv
    have hlt : ¬ vec nblock irq ≥ RP2040._NUMIRQ := by simp [RP2040._NUMIRQ]; omega
    interval_cases nblock <;> interval_cases irq <;>
      simp [RP2040.interruptSet, RP2040.irqSet, RP2040.irqSetMask, hm, hlt]
  · intro vec nblock irq hb hl hv
    have hm := uint32_one_shiftLeft _ hv
    have hlt : ¬ vec nblock irq ≥ RP2350._NUMIRQ := by simp [RP2350._NUMIRQ]; omega
    have hbank : vec nblock irq / 32 = 0 := Nat.div_eq_of_lt hv
    interval_cases nblock <;> interval_cases irq <;>
      simp [RP2350.interruptSet, RP2350.irqSet, RP2350.irqSetMask, hm, hlt, hbank]

/-- The order of the stores at block 1, line 0 of the RP2040 with the vector numbers
7, 8, 9, 10: clear-pending of bit 9, then set-enable of bit 9. -/
theorem irq_enable_clears_pending_first_witness :
    ((1 : Nat) < 2 ∧ (0 : Nat) < 2 ∧ 7 + 2 * 1 + 0 < 32)
    ∧ RP2040.interruptSet (fun b l => 7 + 2 * b + l) 1 0
        = [IrqEvent.interruptNewEnable 9, IrqEvent.write NVICReg.ICPR (2 ^ 9),
           IrqEvent.write NVICReg.ISER (2 ^ 9)] :=
  ⟨by decide,
   irq_enable_clears_pending_first.2.2.2.2.2.2.1 (fun b l => 7 + 2 * b + l) 1 0
     (by decide) (by decide) (by decide)⟩

/-- Clearing the low `n` bits of `m` leaves something exactly when `m` has a bit at
index `n` or above. -/
theorem bitClear_low_mask (m n : Nat) :
    bitClear m (2 ^ n - 1) ≠ 0 ↔ ∃ i, n ≤ i ∧ m.testBit i = true := by
  have tb : ∀ i, (bitClear m (2 ^ n - 1)).testBit i = (m.testBit i && !decide (i < n)) := by
    intro i
    simp [bitClear, Nat.testBit_bitwise]
  constructor
  · intro h
    obtain ⟨i, hi⟩ := Nat.ne_zero_implies_bit_true h
    rw [tb] at hi
    simp at hi
    exact ⟨i, hi.2, hi.1⟩
  · rintro ⟨i, hi, hbit⟩ h0
    have := tb i
    rw [h0] at this
    simp [hbit] at this
    omega

/-- C6.  `validINTEBits` is `2^12 - 1` on RP2040 and `2^16 - 1` on RP2350, so
`m &^ validINTEBits` is non-zero exactly when `m` has a bit set at index 12 or above,
respectively 16 or above. -/
theorem validINTEBits_width :
    RP2040.validINTEBits = 2 ^ 12 - 1
    ∧ RP2350.validINTEBits = 2 ^ 16 - 1
    ∧ (∀ m : Nat, bitClear m RP2040.validINTEBits ≠ 0 ↔ ∃ i, 12 ≤ i ∧ m.testBit i = true)
    ∧ (∀ m : Nat, bitClear m RP2350.validINTEBits ≠ 0 ↔ ∃ i, 16 ≤ i ∧ m.testBit i = true) := by
  refine ⟨by decide, by decide, fun m => ?_, fun m => ?_⟩
  · have h : RP2040.validINTEBits = 2 ^ 12 - 1 := by decide
    rw [h]; exact bitClear_low_mask m 12
  · have h : RP2350.validINTEBits = 2 ^ 16 - 1 := by decide
    rw [h]; exact bitClear_low_mask m 16

/-! ## Theorems: SPI -/

/-- The pushed words of a concatenated trace. -/
theorem txPuts_append (a b : List Event) : txPuts (a ++ b) = txPuts a ++ txPuts b := by
  induction a with
  | nil => rfl
  | cons e es ih => cases e <;> simp [txPuts, ih]

/-- The received words of a concatenated trace. -/
theorem rxGets_append (a b : List Event) : rxGets (a ++ b) = rxGets a ++ rxGets b := by
  induction a with
  | nil => rfl
  | cons e es ih => cases e <;> simp [rxGets, ih]

/-- The probe count of a concatenated trace. -/
theorem probes_append (a b : List Event) : probes (a ++ b) = probes a + probes b := by
  induction a with
  | nil => simp [probes]
  | cons e es ih => cases e <;> simp [probes, ih] <;> omega

/-- One loop body of `SPI.Tx` against a stuck state machine only probes. -/
theorem txBody_stuck (env : FIFOEnv) (w : List Nat) (st : TxState)
    (htx : ∀ k, env.txFull k = true) (hrx : ∀ k, env.rxEmpty k = true)
    (h : st.txRemain ≠ 0) :
    ∃ st2, SPI.txBody env w st = TxStep.next st2 true
      ∧ st2.iterations = st.iterations + 1 ∧ st2.r = st.r
      ∧ st2.txRemain = st.txRemain ∧ st2.rxRemain = st.rxRemain
      ∧ txPuts st2.sm.trace = txPuts st.sm.trace
      ∧ rxGets st2.sm.trace = rxGets st.sm.trace := by
  simp [SPI.txBody, SPI.txSend, SPI.txRecv, h, StateMachine.IsTxFIFOFull,
    StateMachine.IsRxFIFOEmpty, htx, hrx, txPuts_append, rxGets_append, txPuts, rxGets]

/-- The loop of `SPI.Tx` against a stuck state machine runs until `retries` is used
up and returns the timeout. -/
theorem txLoop_stuck (env : FIFOEnv) (w : List Nat)
    (htx : ∀ k, env.txFull k = true) (hrx : ∀ k, env.rxEmpty k = true) :
    ∀ (retries : Nat) (st : TxState), st.txRemain ≠ 0 →
      (SPI.txLoop env w retries st).2 = Outcome.returned (some SPIError.timeout)
      ∧ (SPI.txLoop env w retries st).1.iterations = st.iterations + max retries 1
      ∧ (SPI.txLoop env w retries st).1.r = st.r
      ∧ txPuts (SPI.txLoop env w retries st).1.sm.trace = txPuts st.sm.trace
      ∧ rxGets (SPI.txLoop env w retries st).1.sm.trace = rxGets st.sm.trace := by
  intro retries
  induction retries with
  | zero =>
    intro st h
    obtain ⟨st2, hb, hi, hr, _, _, hp, hg⟩ := txBody_stuck env w st htx hrx h
    simp [SPI.txLoop, h, hb, hi, hr, hp, hg]
  | succ n ih =>
    intro st h
    obtain ⟨st2, hb, hi, hr, ht, _, hp, hg⟩ := txBody_stuck env w st htx hrx h
    by_cases hn : n = 0
    · subst hn
      simp [SPI.txLoop, h, hb, hi, hr, hp, hg]
    · have hpos : ¬ n ≤ 0 := by omega
      have h2 : ({ st2 with sm := st2.sm.gosched } : TxState).txRemain ≠ 0 := by
        simpa [ht] using h
      obtain ⟨r1, r2, r3, r4, r5⟩ := ih { st2 with sm := st2.sm.gosched } h2
      have e4 : txPuts (st2.sm.gosched).trace = txPuts st2.sm.trace := by
        simp [StateMachine.gosched, txPuts_append, txPuts]
      have e5 : rxGets (st2.sm.gosched).trace = rxGets st2.sm.trace := by
        simp [StateMachine.gosched, rxGets_append, rxGets]
      have hloop : SPI.txLoop env w (n + 1) st
          = SPI.txLoop env w n { st2 with sm := st2.sm.gosched } := by
        simp [SPI.txLoop, h, hb, hn]
      simp only [] at r2 r3 r4 r5
      rw [hloop]
      refine ⟨r1, ?_, ?_, ?_, ?_⟩
      · rw [r2, hi]; omega
      · rw [r3, hr]
      · rw [r4, e4, hp]
      · rw [r5, e5, hg]

/-- One loop body of `SPI.Transfer` against a stuck state machine only probes. -/
theorem transferBody_stuck (env : FIFOEnv) (c : Nat) (st : TransferState)
    (htx : ∀ k, env.txFull k = true) (hrx : ∀ k, env.rxEmpty k = true)
    (h1 : st.waitTx = true) (h2 : st.waitRx = true) :
    (SPI.transferBody env c st).waitTx = true
      ∧ (SPI.transferBody env c st).waitRx = true
      ∧ (SPI.transferBody env c st).iterations = st.iterations + 1
      ∧ txPuts (SPI.transferBody env c st).sm.trace = txPuts st.sm.trace
      ∧ rxGets (SPI.transferBody env c st).sm.trace = rxGets st.sm.trace := by
  simp [SPI.transferBody, h1, h2, StateMachine.IsTxFIFOFull, StateMachine.IsRxFIFOEmpty,
    htx, hrx, txPuts_append, rxGets_append, txPuts, rxGets]

/-- The loop of `SPI.Transfer` against a stuck state machine runs until `retries` is
used up and returns `(0, timeout)`. -/
theorem transferLoop_stuck (env : FIFOEnv) (c : Nat)
    (htx : ∀ k, env.txFull k = true) (hrx : ∀ k, env.rxEmpty k = true) :
    ∀ (retries : Nat) (st : TransferState), st.waitTx = true → st.waitRx = true →
      (SPI.transferLoop env c retries st).2 = (0, some SPIError.timeout)
      ∧ (SPI.transferLoop env c retries st).1.iterations = st.iterations + max retries 1
      ∧ txPuts (SPI.transferLoop env c retries st).1.sm.trace = txPuts st.sm.trace
      ∧ rxGets (SPI.transferLoop env c retries st).1.sm.trace = rxGets st.sm.trace := by
  intro retries
  induction retries with
  | zero =>
    intro st h1 h2
    obtain ⟨_, _, hi, hp, hg⟩ := transferBody_stuck env c st htx hrx h1 h2
    simp [SPI.transferLoop, h1, hi, hp, hg]
  | succ n ih =>
    intro st h1 h2
    obtain ⟨b1, b2, hi, hp, hg⟩ := transferBody_stuck env c st htx hrx h1 h2
    by_cases hn : n = 0
    · subst hn
      simp [SPI.transferLoop, h1, hi, hp, hg]
    · have hloop : SPI.transferLoop env c (n + 1) st
          = SPI.transferLoop env c n (SPI.transferBody env c st) := by
        simp [SPI.transferLoop, h1, hn]
      obtain ⟨r1, r2, r3, r4⟩ := ih (SPI.transferBody env c st) b1 b2
      rw [hloop]
      refine ⟨r1, ?_, ?_, ?_⟩
      · rw [r2, hi]; omega
      · rw [r3, hp]
      · rw [r4, hg]

/-- C2 (the code at a failing input).  `SPI.Tx` with `w = [0xA1, 0xB2]`, `r = [0, 0]`
and both FIFOs always ready: both bytes are pushed, but only one word is read, the
last byte of `r` is never written, and the call returns the timeout after 32 loop
bodies instead of `nil`. -/
theorem Tx_ready_never_receives_last_byte :
    (SPI.Tx envReady StateMachine.fresh [0xA1, 0xB2] [0, 0]).2
        = Outcome.returned (some SPIError.timeout)
    ∧ (SPI.Tx envReady StateMachine.fresh [0xA1, 0xB2] [0, 0]).1.iterations = 32
    ∧ txPuts (SPI.Tx envReady StateMachine.fresh [0xA1, 0xB2] [0, 0]).1.sm.trace = [0xA1, 0xB2]
    ∧ rxGets (SPI.Tx envReady StateMachine.fresh [0xA1, 0xB2] [0, 0]).1.sm.trace = [0x5A]
    ∧ (SPI.Tx envReady StateMachine.fresh [0xA1, 0xB2] [0, 0]).1.r = [0x5A, 0]
    ∧ (SPI.Tx envReady StateMachine.fresh [0xA1, 0xB2] [0, 0]).1.rxRemain = 1 := by
  decide

/-- C3.  Against a stuck state machine (TX FIFO always full, RX FIFO always empty)
`SPI.Tx` on equal-length non-empty buffers returns the timeout after exactly 32 loop
bodies, with no `TxPut`, no `RxGet` and `r` unchanged, and `SPI.Transfer` returns
`(0, timeout)` after exactly 16 loop bodies, with no `TxPut` and no `RxGet`. -/
theorem stuck_transfer_times_out (env : FIFOEnv) (sm : StateMachine) (w r : List Nat) (c : Nat)
    (hlen : r.length = w.length) (hne : w ≠ [])
    (htx : ∀ k, env.txFull k = true) (hrx : ∀ k, env.rxEmpty k = true) :
    ((SPI.Tx env sm w r).2 = Outcome.returned (some SPIError.timeout)
      ∧ (SPI.Tx env sm w r).1.iterations = 32
      ∧ txPuts (SPI.Tx env sm w r).1.sm.trace = txPuts sm.trace
      ∧ rxGets (SPI.Tx env sm w r).1.sm.trace = rxGets sm.trace
      ∧ (SPI.Tx env sm w r).1.r = r)
    ∧ ((SPI.Transfer env sm c).2 = (0, some SPIError.timeout)
      ∧ (SPI.Transfer env sm c).1.iterations = 16
      ∧ txPuts (SPI.Transfer env sm c).1.sm.trace = txPuts sm.trace
      ∧ rxGets (SPI.Transfer env sm c).1.sm.trace = rxGets sm.trace) := by
  constructor
  · have hw : w.length ≠ 0 := by
      intro h0; exact hne (List.length_eq_zero.mp h0)
    have hTx : SPI.Tx env sm w r = SPI.txLoop env w 32
        { sm := sm, r := r, rxRemain := r.length, txRemain := w.length,
          iterations := 0, idle := 0 } := by
      simp [SPI.Tx, hlen]
    obtain ⟨r1, r2, r3, r4, r5⟩ := txLoop_stuck env w htx hrx 32
      { sm := sm, r := r, rxRemain := r.length, txRemain := w.length,
        iterations := 0, idle := 0 } hw
    rw [hTx]
    exact ⟨r1, by rw [r2]; rfl, r4, r5, r3⟩
  · obtain ⟨r1, r2, r3, r4⟩ := transferLoop_stuck env c htx hrx 16
      { sm := sm, rx := 0, waitTx := true, waitRx := true, iterations := 0 } rfl rfl
    exact ⟨r1, by rw [SPI.Transfer, r2]; rfl, r3, r4⟩

/-- A stuck transfer of three bytes: timeout after 32 loop bodies, `r` untouched. -/
theorem stuck_transfer_times_out_witness :
    (([7, 8, 9] : List Nat).length = ([1, 2, 3] : List Nat).length
      ∧ ([1, 2, 3] : List Nat) ≠ []
      ∧ (∀ k, envStuck.txFull k = true) ∧ (∀ k, envStuck.rxEmpty k = true))
    ∧ (SPI.Tx envStuck StateMachine.fresh [1, 2, 3] [7, 8, 9]).2
        = Outcome.returned (some SPIError.timeout)
    ∧ (SPI.Tx envStuck StateMachine.fresh [1, 2, 3] [7, 8, 9]).1.r = [7, 8, 9] :=
  have h := stuck_transfer_times_out envStuck StateMachine.fresh [1, 2, 3] [7, 8, 9] 0
    (by decide) (by decide) (fun _ => rfl) (fun _ => rfl)
  ⟨⟨by decide, by decide, fun _ => rfl, fun _ => rfl⟩, h.1.1, h.1.2.2.2.2⟩

set_option maxRecDepth 100000

/-- C10 (the code at a failing input).  `SPI.Tx` with two 33-byte buffers and both
FIFOs always ready: every one of the 32 loop bodies pushes a byte and reads a byte
(none is idle), and the call still returns the timeout. -/
theorem Tx_times_out_while_progressing :
    (SPI.Tx envReady StateMachine.fresh (List.replicate 33 1) (List.replicate 33 0)).2
        = Outcome.returned (some SPIError.timeout)
    ∧ (SPI.Tx envReady StateMachine.fresh (List.replicate 33 1) (List.replicate 33 0)).1.iterations
        = 32
    ∧ (SPI.Tx envReady StateMachine.fresh (List.replicate 33 1) (List.replicate 33 0)).1.idle = 0
    ∧ (txPuts (SPI.Tx envReady StateMachine.fresh (List.replicate 33 1)
        (List.replicate 33 0)).1.sm.trace).length = 32
    ∧ (rxGets (SPI.Tx envReady StateMachine.fresh (List.replicate 33 1)
        (List.replicate 33 0)).1.sm.trace).length = 32 := by
  decide

/-! ## Theorems: I2S -/

/-- Interference from another context touches only the `writing` flag. -/
theorem interfere_fields (cancel : Nat → Bool) (st : I2SLoopState) :
    (st.interfere cancel).i = st.i ∧ (st.interfere cancel).iterations = st.iterations
      ∧ (st.interfere cancel).i2s.sm = st.i2s.sm := by
  unfold I2SLoopState.interfere
  split <;> simp

/-- Interference only ever clears the flag. -/
theorem interfere_writing (cancel : Nat → Bool) (st : I2SLoopState) :
    (st.interfere cancel).i2s.writing = (st.i2s.writing && !cancel st.iterations) := by
  unfold I2SLoopState.interfere
  split <;> simp [*]

/-- While the TX FIFO answers "full" from the current probe on, the loop of
`i2sWrite` does not return, whatever the number of loop bodies allowed. -/
theorem i2sLoop_full_forever (env : FIFOEnv) (cancel : Nat → Bool) (b : List Nat) :
    ∀ (fuel : Nat) (st : I2SLoopState),
      (∀ k, st.i2s.sm.txProbes ≤ k → env.txFull k = true) → st.i < b.length →
      i2sLoop env cancel b fuel st = none := by
  intro fuel
  induction fuel with
  | zero => intro st _ hi; simp [i2sLoop, hi]
  | succ n ih =>
    intro st hfull hi
    obtain ⟨f1, f2, f3⟩ := interfere_fields cancel st
    have hnow : env.txFull st.i2s.sm.txProbes = true := hfull _ (Nat.le_refl _)
    simp only [i2sLoop, hi, dite_true, StateMachine.IsTxFIFOFull, f3, hnow, if_true]
    apply ih
    · intro k hk
      apply hfull
      simp [StateMachine.gosched] at hk
      omega
    · simpa [f1] using hi

/-- The unfolding of one loop body when the TX FIFO is found full. -/
theorem i2sLoop_step_full (env : FIFOEnv) (cancel : Nat → Bool) (b : List Nat) (fuel : Nat)
    (st : I2SLoopState) (hi : st.i < b.length) (hfull : env.txFull st.i2s.sm.txProbes = true) :
    i2sLoop env cancel b (fuel + 1) st
      = i2sLoop env cancel b fuel
          { i2s := { sm := (st.i2s.sm.IsTxFIFOFull env).2.gosched,
                     writing := (st.interfere cancel).i2s.writing },
            i := st.i, iterations := st.iterations + 1 } := by
  obtain ⟨f1, f2, f3⟩ := interfere_fields cancel st
  simp only [i2sLoop, hi, dite_true, StateMachine.IsTxFIFOFull, f1, f2, f3, hfull, if_true]

/-- The unfolding of one loop body when the TX FIFO has room and the flag is clear. -/
theorem i2sLoop_step_cancelled (env : FIFOEnv) (cancel : Nat → Bool) (b : List Nat) (fuel : Nat)
    (st : I2SLoopState) (hi : st.i < b.length) (hfull : env.txFull st.i2s.sm.txProbes = false)
    (hw : (st.interfere cancel).i2s.writing = false) :
    i2sLoop env cancel b (fuel + 1) st
      = some ({ i2s := { sm := (st.i2s.sm.IsTxFIFOFull env).2, writing := false },
                i := st.i, iterations := st.iterations + 1 }, st.i, none) := by
  obtain ⟨f1, f2, f3⟩ := interfere_fields cancel st
  simp [i2sLoop, hi, StateMachine.IsTxFIFOFull, f1, f2, f3, hfull, hw]

/-- The unfolding of one loop body when the TX FIFO has room and the flag is set. -/
theorem i2sLoop_step_push (env : FIFOEnv) (cancel : Nat → Bool) (b : List Nat) (fuel : Nat)
    (st : I2SLoopState) (hi : st.i < b.length) (hfull : env.txFull st.i2s.sm.txProbes = false)
    (hw : (st.interfere cancel).i2s.writing = true) :
    i2sLoop env cancel b (fuel + 1) st
      = i2sLoop env cancel b fuel
          { i2s := { sm := (st.i2s.sm.IsTxFIFOFull env).2.TxPut (uint32 b[st.i]),
                     writing := true },
            i := st.i + 1, iterations := st.iterations + 1 } := by
  obtain ⟨f1, f2, f3⟩ := interfere_fields cancel st
  simp [i2sLoop, hi, StateMachine.IsTxFIFOFull, f1, f2, f3, hfull, hw]

/-- Once the buffer is written the loop is left at once: the flag is cleared and
`len(b)` returned. -/
theorem i2sLoop_done (env : FIFOEnv) (cancel : Nat → Bool) (b : List Nat) (fuel : Nat)
    (st : I2SLoopState) (hi : ¬ st.i < b.length) :
    i2sLoop env cancel b fuel st
      = some ({ st with i2s := { st.i2s with writing := false } }, b.length, none) := by
  cases fuel <;> simp [i2sLoop, hi]

/-- The loop of `i2sWrite` returns within `fuel` loop bodies when the TX FIFO is
found not full often enough during them. -/
theorem i2sLoop_returns (env : FIFOEnv) (cancel : Nat → Bool) (b : List Nat) :
    ∀ (fuel : Nat) (st : I2SLoopState),
      b.length - st.i ≤ notFullCount env st.i2s.sm.txProbes fuel →
      ∃ res, i2sLoop env cancel b fuel st = some res
        ∧ res.1.iterations ≤ st.iterations + fuel := by
  intro fuel
  induction fuel with
  | zero =>
    intro st h
    have hi : ¬ st.i < b.length := by simp [notFullCount] at h; omega
    exact ⟨_, i2sLoop_done env cancel b 0 st hi, by simp⟩
  | succ n ih =>
    intro st h
    by_cases hi : st.i < b.length
    · cases hfull : env.txFull st.i2s.sm.txProbes with
      | true =>
        rw [i2sLoop_step_full env cancel b n st hi hfull]
        have h' : b.length - st.i ≤ notFullCount env (st.i2s.sm.txProbes + 1) n := by
          simpa [notFullCount, hfull] using h
        obtain ⟨res, hres, hit⟩ := ih
          { i2s := { sm := (st.i2s.sm.IsTxFIFOFull env).2.gosched,
                     writing := (st.interfere cancel).i2s.writing },
            i := st.i, iterations := st.iterations + 1 } h'
        exact ⟨res, hres, by simp only [] at hit; omega⟩
      | false =>
        cases hw : (st.interfere cancel).i2s.writing with
        | false =>
          rw [i2sLoop_step_cancelled env cancel b n st hi hfull hw]
          exact ⟨_, rfl, by simp⟩
        | true =>
          rw [i2sLoop_step_push env cancel b n st hi hfull hw]
          have h' : b.length - (st.i + 1) ≤ notFullCount env (st.i2s.sm.txProbes + 1) n := by
            simp [notFullCount, hfull] at h
            omega
          obtain ⟨res, hres, hit⟩ := ih
            { i2s := { sm := (st.i2s.sm.IsTxFIFOFull env).2.TxPut (uint32 b[st.i]),
                       writing := true },
              i := st.i + 1, iterations := st.iterations + 1 } h'
          exact ⟨res, hres, by simp only [] at hit; omega⟩
    · exact ⟨_, i2sLoop_done env cancel b (n + 1) st hi, by simp⟩

/-- With nobody clearing the flag, the loop of `i2sWrite` pushes the rest of the
buffer in order, clears the flag and returns `len(b)`. -/
theorem i2sLoop_writes_all (env : FIFOEnv) (cancel : Nat → Bool) (b : List Nat)
    (hc : ∀ k, cancel k = false) :
    ∀ (fuel : Nat) (st : I2SLoopState), st.i2s.writing = true →
      b.length - st.i ≤ notFullCount env st.i2s.sm.txProbes fuel →
      ∃ res, i2sLoop env cancel b fuel st = some (res, b.length, none)
        ∧ res.i2s.writing = false
        ∧ txPuts res.i2s.sm.trace = txPuts st.i2s.sm.trace ++ (b.drop st.i).map uint32 := by
  intro fuel
  induction fuel with
  | zero =>
    intro st _ h
    have hi : ¬ st.i < b.length := by simp [notFullCount] at h; omega
    refine ⟨_, i2sLoop_done env cancel b 0 st hi, rfl, ?_⟩
    have : b.drop st.i = [] := List.drop_eq_nil_of_le (by omega)
    simp [this]
  | succ n ih =>
    intro st hwr h
    by_cases hi : st.i < b.length
    · have hw : (st.interfere cancel).i2s.writing = true := by
        rw [interfere_writing, hwr, hc]; rfl
      cases hfull : env.txFull st.i2s.sm.txProbes with
      | true =>
        rw [i2sLoop_step_full env cancel b n st hi hfull]
        have h' : b.length - st.i ≤ notFullCount env (st.i2s.sm.txProbes + 1) n := by
          simpa [notFullCount, hfull] using h
        obtain ⟨res, hres, hflag, hputs⟩ := ih
          { i2s := { sm := (st.i2s.sm.IsTxFIFOFull env).2.gosched,
                     writing := (st.interfere cancel).i2s.writing },
            i := st.i, iterations := st.iterations + 1 } hw h'
        refine ⟨res, hres, hflag, ?_⟩
        rw [hputs]
        simp [StateMachine.gosched, StateMachine.IsTxFIFOFull, txPuts_append, txPuts]
      | false =>
        rw [i2sLoop_step_push env cancel b n st hi hfull hw]
        have h' : b.length - (st.i + 1) ≤ notFullCount env (st.i2s.sm.txProbes + 1) n := by
          simp [notFullCount, hfull] at h
          omega
        obtain ⟨res, hres, hflag, hputs⟩ := ih
          { i2s := { sm := (st.i2s.sm.IsTxFIFOFull env).2.TxPut (uint32 b[st.i]),
                     writing := true },
            i := st.i + 1, iterations := st.iterations + 1 } rfl h'
        refine ⟨res, hres, hflag, ?_⟩
        rw [hputs]
        simp [StateMachine.TxPut, StateMachine.IsTxFIFOFull, txPuts_append, txPuts, -List.map_drop]
        rw [List.drop_eq_getElem_cons hi, List.map_cons]
    · refine ⟨_, i2sLoop_done env cancel b (n + 1) st hi, rfl, ?_⟩
      have : b.drop st.i = [] := List.drop_eq_nil_of_le (by omega)
      simp [this]

/-- C4 (counterexample).  With a one-word buffer and a TX FIFO that never drains,
`i2sWrite` has not returned after any number of loop bodies. -/
theorem i2sWrite_stuck_never_returns :
    ¬ ∃ fuel, (i2sWrite envStuck noCancel fuel
        { sm := StateMachine.fresh, writing := false } [1]).isSome = true := by
  rintro ⟨fuel, h⟩
  have hnone : i2sLoop envStuck noCancel [1] fuel
      { i2s := { sm := StateMachine.fresh, writing := true }, i := 0, iterations := 0 }
        = none :=
    i2sLoop_full_forever envStuck noCancel [1] fuel _ (fun _ _ => rfl) (by decide)
  simp [i2sWrite, hnone] at h

/-- C4 (amended).  `i2sWrite` returns within `fuel` loop bodies whenever at least
`len(b)` of the next `fuel` answers of `IsTxFIFOFull` are "not full", whatever
happens to the `writing` flag; it has no retry bound of its own, so on a non-empty
buffer, with the flag clear at entry and a TX FIFO that always answers "full", it
has not returned after any number of loop bodies. -/
theorem i2sWrite_returns_when_fifo_drains (env : FIFOEnv) (cancel : Nat → Bool) (fuel : Nat)
    (i2s : I2S) (b : List Nat) :
    (b.length ≤ notFullCount env i2s.sm.txProbes fuel →
      ∃ res, i2sWrite env cancel fuel i2s b = some res ∧ res.1.iterations ≤ fuel)
    ∧ (b ≠ [] → i2s.writing = false → (∀ k, env.txFull k = true) →
      ∀ n, i2sWrite env cancel n i2s b = none) := by
  constructor
  · intro h
    by_cases hb : b.length = 0
    · exact ⟨({ i2s := i2s, i := 0, iterations := 0 }, 0, none), by simp [i2sWrite, hb],
        Nat.zero_le _⟩
    · cases hw : i2s.writing with
      | true =>
        exact ⟨({ i2s := i2s, i := 0, iterations := 0 }, 0, some I2SError.errBusy),
          by simp [i2sWrite, hb, hw], Nat.zero_le _⟩
      | false =>
        obtain ⟨res, hres, hit⟩ := i2sLoop_returns env cancel b fuel
          { i2s := { i2s with writing := true }, i := 0, iterations := 0 } (by simpa using h)
        refine ⟨res, ?_, by simpa using hit⟩
        simp only [i2sWrite, hb, hw, if_false]
        exact hres
  · intro hne hw hfull n
    have hb : b.length ≠ 0 := fun h0 => hne (List.length_eq_zero.mp h0)
    simp only [i2sWrite, hb, hw, if_false]
    exact i2sLoop_full_forever env cancel b n _ (fun k _ => hfull k) (by simpa using Nat.pos_of_ne_zero hb)

/-- Three words against a FIFO that is always ready: returned within 3 loop bodies;
one word against a stuck FIFO: never returned. -/
theorem i2sWrite_returns_when_fifo_drains_witness :
    (([1, 2, 3] : List Nat).length ≤ notFullCount envReady StateMachine.fresh.txProbes 3
      ∧ ∃ res, i2sWrite envReady noCancel 3 { sm := StateMachine.fresh, writing := false }
          [1, 2, 3] = some res ∧ res.1.iterations ≤ 3)
    ∧ (([1] : List Nat) ≠ [] ∧ (∀ k, envStuck.txFull k = true)
      ∧ ∀ n, i2sWrite envStuck noCancel n { sm := StateMachine.fresh, writing := false } [1]
          = none) :=
  ⟨⟨by decide,
    (i2sWrite_returns_when_fifo_drains envReady noCancel 3
      { sm := StateMachine.fresh, writing := false } [1, 2, 3]).1 (by decide)⟩,
   ⟨by decide, fun _ => rfl,
    (i2sWrite_returns_when_fifo_drains envStuck noCancel 0
      { sm := StateMachine.fresh, writing := false } [1]).2 (by decide) rfl (fun _ => rfl)⟩⟩

/-- C7.  On a non-empty buffer, with the `writing` flag clear at entry, nobody
clearing it during the call and at least `len(b)` "not full" answers among the next
`fuel` probes, `i2sWrite` returns `(len(b), nil)`, the words pushed by `TxPut` are
exactly `uint32(b[0]), ..., uint32(b[len(b)-1])` in order (the elements themselves
when they fit 32 bits), and the flag is false on return.  On an empty buffer it
returns `(0, nil)` and leaves the handle as it was.  `WriteMono` and `WriteStereo`
are `i2sWrite`. -/
theorem i2sWrite_writes_whole_buffer (env : FIFOEnv) (cancel : Nat → Bool) (fuel : Nat)
    (i2s : I2S) (b : List Nat) :
    (b ≠ [] → i2s.writing = false → (∀ k, cancel k = false) →
      b.length ≤ notFullCount env i2s.sm.txProbes fuel →
      ∃ res, i2sWrite env cancel fuel i2s b = some (res, b.length, none)
        ∧ txPuts res.i2s.sm.trace = txPuts i2s.sm.trace ++ b.map uint32
        ∧ res.i2s.writing = false)
    ∧ i2sWrite env cancel fuel i2s [] = some ({ i2s := i2s, i := 0, iterations := 0 }, 0, none)
    ∧ ((∀ x ∈ b, x < 2 ^ 32) → b.map uint32 = b)
    ∧ I2S.WriteMono env cancel fuel i2s b = i2sWrite env cancel fuel i2s b
    ∧ I2S.WriteStereo env cancel fuel i2s b = i2sWrite env cancel fuel i2s b := by
  refine ⟨?_, by simp [i2sWrite], ?_, rfl, rfl⟩
  · intro hne hw hc h
    have hb : b.length ≠ 0 := fun h0 => hne (List.length_eq_zero.mp h0)
    obtain ⟨res, hres, hflag, hputs⟩ := i2sLoop_writes_all env cancel b hc fuel
      { i2s := { i2s with writing := true }, i := 0, iterations := 0 } rfl (by simpa using h)
    refine ⟨res, ?_, by simpa using hputs, hflag⟩
    simp only [i2sWrite, hb, hw, if_false]
    exact hres
  · intro hlt
    have : ∀ x ∈ b, uint32 x = id x := fun x hx => Nat.mod_eq_of_lt (hlt x hx)
    rw [List.map_congr_left this, List.map_id]

/-- Three 16-bit samples against a FIFO that is full at every other probe: all
three are pushed in order within 6 loop bodies. -/
theorem i2sWrite_writes_whole_buffer_witness :
    (([0x1234, 0xFFFF, 7] : List Nat) ≠ []
      ∧ ([0x1234, 0xFFFF, 7] : List Nat).length
          ≤ notFullCount { envReady with txFull := fun k => k % 2 == 0 } 0 6)
    ∧ ∃ res, i2sWrite { envReady with txFull := fun k => k % 2 == 0 } noCancel 6
          { sm := StateMachine.fresh, writing := false } [0x1234, 0xFFFF, 7]
          = some (res, 3, none)
        ∧ txPuts res.i2s.sm.trace = [] ++ [0x1234, 0xFFFF, 7].map uint32
        ∧ res.i2s.writing = false :=
  ⟨⟨by decide, by decide⟩,
   (i2sWrite_writes_whole_buffer { envReady with txFull := fun k => k % 2 == 0 } noCancel 6
      { sm := StateMachine.fresh, writing := false } [0x1234, 0xFFFF, 7]).1
      (by decide) rfl (fun _ => rfl) (by decide)⟩

/-- C8.  On a non-empty buffer with the `writing` flag already set, `i2sWrite`
returns `(0, errBusy)` at once: the handle is unchanged, so nothing was pushed, no
FIFO status was probed and the flag is still set. -/
theorem i2sWrite_busy (env : FIFOEnv) (cancel : Nat → Bool) (fuel : Nat) (i2s : I2S)
    (b : List Nat) (hne : b ≠ []) (hw : i2s.writing = true) :
    ∃ res, i2sWrite env cancel fuel i2s b = some (res, 0, some I2SError.errBusy)
      ∧ res.i2s = i2s
      ∧ res.iterations = 0
      ∧ txPuts res.i2s.sm.trace = txPuts i2s.sm.trace
      ∧ probes res.i2s.sm.trace = probes i2s.sm.trace
      ∧ res.i2s.writing = true := by
  have hb : b.length ≠ 0 := fun h0 => hne (List.length_eq_zero.mp h0)
  exact ⟨{ i2s := i2s, i := 0, iterations := 0 }, by simp [i2sWrite, hb, hw], rfl, rfl, rfl,
    rfl, hw⟩

/-- A busy handle, even with a FIFO that is ready: `(0, errBusy)` and no event. -/
theorem i2sWrite_busy_witness :
    (([1, 2] : List Nat) ≠ [] ∧ ({ sm := StateMachine.fresh, writing := true } : I2S).writing = true)
    ∧ ∃ res, i2sWrite envReady noCancel 5 { sm := StateMachine.fresh, writing := true } [1, 2]
          = some (res, 0, some I2SError.errBusy)
        ∧ res.i2s = { sm := StateMachine.fresh, writing := true }
        ∧ res.iterations = 0
        ∧ txPuts res.i2s.sm.trace = txPuts StateMachine.fresh.trace
        ∧ probes res.i2s.sm.trace = probes StateMachine.fresh.trace
        ∧ res.i2s.writing = true :=
  ⟨⟨by decide, rfl⟩,
   i2sWrite_busy envReady noCancel 5 { sm := StateMachine.fresh, writing := true } [1, 2]
     (by decide) rfl⟩

/-- C9 (counterexample).  Two words to write; the first is pushed, then the flag is
cleared and the TX FIFO stays full: `i2sWrite` does not exit at its next loop body,
nor at any later one. -/
theorem i2sWrite_cancel_unseen_while_full :
    ¬ ∃ fuel, (i2sWrite envFullAfterFirst cancelBeforeSecond fuel
        { sm := StateMachine.fresh, writing := false } [1, 2]).isSome = true := by
  rintro ⟨fuel, h⟩
  cases fuel with
  | zero => simp [i2sWrite, i2sLoop] at h
  | succ n =>
    have hstep := i2sLoop_step_push envFullAfterFirst cancelBeforeSecond [1, 2] n
      { i2s := { sm := StateMachine.fresh, writing := true }, i := 0, iterations := 0 }
      (by decide) rfl rfl
    have hnone := i2sLoop_full_forever envFullAfterFirst cancelBeforeSecond [1, 2] n
      { i2s := { sm := ((StateMachine.fresh).IsTxFIFOFull envFullAfterFirst).2.TxPut
                   (uint32 1), writing := true },
        i := 1, iterations := 1 }
      (fun k hk => by
        simp [StateMachine.IsTxFIFOFull, StateMachine.TxPut, StateMachine.fresh] at hk
        simp [envFullAfterFirst, hk])
      (by decide)
    have hres : i2sWrite envFullAfterFirst cancelBeforeSecond (n + 1)
        { sm := StateMachine.fresh, writing := false } [1, 2] = none := by
      simp only [i2sWrite]
      rw [if_neg (by decide), if_neg (by decide)]
      rw [hstep]
      exact hnone
    rw [hres] at h
    simp at h

/-- C9 (amended).  In the loop of `i2sWrite` with `i < len(b)` words pushed and the
`writing` flag cleared, if the next `k` probes find the TX FIFO full and the one
after them finds it not full, the loop polls and yields `k` times and then exits at
loop body number `k+1`, returning `(i, nil)` with no further word pushed. -/
theorem i2sLoop_cancel_exits_when_fifo_has_room (env : FIFOEnv) (cancel : Nat → Bool)
    (b : List Nat) (fuel : Nat) :
    ∀ (k : Nat) (st : I2SLoopState), st.i < b.length →
      (st.interfere cancel).i2s.writing = false →
      (∀ j, j < k → env.txFull (st.i2s.sm.txProbes + j) = true) →
      env.txFull (st.i2s.sm.txProbes + k) = false →
      ∃ res, i2sLoop env cancel b (k + fuel + 1) st = some (res, st.i, none)
        ∧ txPuts res.i2s.sm.trace = txPuts st.i2s.sm.trace
        ∧ res.iterations = st.iterations + k + 1
        ∧ res.i2s.writing = false := by
  intro k
  induction k with
  | zero =>
    intro st hi hw _ hroom
    rw [Nat.zero_add, i2sLoop_step_cancelled env cancel b fuel st hi (by simpa using hroom) hw]
    exact ⟨_, rfl, by simp [StateMachine.IsTxFIFOFull, txPuts_append, txPuts], rfl, rfl⟩
  | succ n ih =>
    intro st hi hw hfull hroom
    have h0 : env.txFull st.i2s.sm.txProbes = true := by
      simpa using hfull 0 (Nat.succ_pos n)
    have hfuel : n + 1 + fuel + 1 = (n + fuel + 1) + 1 := by omega
    rw [hfuel, i2sLoop_step_full env cancel b (n + fuel + 1) st hi h0]
    obtain ⟨res, hres, hputs, hit, hflag⟩ := ih
      { i2s := { sm := (st.i2s.sm.IsTxFIFOFull env).2.gosched,
                 writing := (st.interfere cancel).i2s.writing },
        i := st.i, iterations := st.iterations + 1 }
      hi
      (by rw [interfere_writing]; simp [hw])
      (fun j hj => by
        have := hfull (j + 1) (by omega)
        simpa [StateMachine.IsTxFIFOFull, StateMachine.gosched, Nat.add_assoc,
          Nat.add_comm 1 j] using this)
      (by
        simpa [StateMachine.IsTxFIFOFull, StateMachine.gosched, Nat.add_assoc,
          Nat.add_comm 1 n] using hroom)
    refine ⟨res, hres, ?_, ?_, hflag⟩
    · rw [hputs]
      simp [StateMachine.IsTxFIFOFull, StateMachine.gosched, txPuts_append, txPuts]
    · rw [hit]; simp only []; omega

/-- One word pushed, flag cleared, the next probe finds the FIFO full and the one
after it finds room: exit at the second loop body with `(1, nil)`. -/
theorem i2sLoop_cancel_exits_when_fifo_has_room_witness :
    ((1 : Nat) < ([1, 2] : List Nat).length
      ∧ envFullOnce.txFull (1 + 0) = true ∧ envFullOnce.txFull (1 + 1) = false)
    ∧ ∃ res, i2sLoop envFullOnce noCancel [1, 2] (1 + 0 + 1)
          { i2s := { sm := { StateMachine.fresh with txProbes := 1 }, writing := false },
            i := 1, iterations := 1 } = some (res, 1, none)
        ∧ txPuts res.i2s.sm.trace = txPuts StateMachine.fresh.trace
        ∧ res.iterations = 1 + 1 + 1
        ∧ res.i2s.writing = false :=
  ⟨⟨by decide, rfl, rfl⟩,
   i2sLoop_cancel_exits_when_fifo_has_room envFullOnce noCancel [1, 2] 0 1
     { i2s := { sm := { StateMachine.fresh with txProbes := 1 }, writing := false },
       i := 1, iterations := 1 }
     (by decide) rfl
     (fun j hj => by
       have hj0 : j = 0 := by omega
       subst hj0; rfl)
     rfl⟩

/-! ## Theorems: SPI buffer lengths and indices -/

/-- Whatever the two lengths are, `SPI.Tx` on buffers of different lengths returns the
length error at once: nothing is probed or transferred and `r` is as it was. -/
theorem Tx_length_mismatch (env : FIFOEnv) (sm : StateMachine) (w r : List Nat)
    (h : r.length ≠ w.length) :
    SPI.Tx env sm w r
      = ({ sm := sm, r := r, rxRemain := r.length, txRemain := w.length,
           iterations := 0, idle := 0 },
         Outcome.returned (some SPIError.lengthsNotEqual)) := by
  simp [SPI.Tx, h]

/-- C11 (the code at two failing inputs).  `SPI.Tx` makes no exception for a nil
buffer: with `r` nil and `w = [1, 2]`, and with `w` nil and `r = [0, 0]`, it returns
the length error for every state machine and every FIFO answer, with no FIFO access
and `r` unchanged, instead of only transmitting or only receiving. -/
theorem Tx_nil_buffer_is_length_error :
    (∀ (env : FIFOEnv) (sm : StateMachine),
      SPI.Tx env sm [1, 2] []
        = ({ sm := sm, r := [], rxRemain := 0, txRemain := 2, iterations := 0, idle := 0 },
           Outcome.returned (some SPIError.lengthsNotEqual)))
    ∧ (∀ (env : FIFOEnv) (sm : StateMachine),
      SPI.Tx env sm [] [0, 0]
        = ({ sm := sm, r := [0, 0], rxRemain := 2, txRemain := 0, iterations := 0, idle := 0 },
           Outcome.returned (some SPIError.lengthsNotEqual))) :=
  ⟨fun env sm => Tx_length_mismatch env sm [1, 2] [] (by decide),
   fun env sm => Tx_length_mismatch env sm [] [0, 0] (by decide)⟩

/-- C13 (the code at a failing input).  `SPI.Tx` with `w = [1]`, `r = [0]`, the TX
FIFO always full and the RX FIFO never empty: the first loop body stores a received
byte at `r[0]` and brings `rxRemain` to 0; the second one, still let in by
`txRemain != 0`, calls `RxGet` and then indexes `r[len(r)-rxRemain] = r[1]`, outside
the slice, and the run time stops the call. -/
theorem Tx_receive_index_out_of_range :
    (SPI.Tx envTxFullRxReady StateMachine.fresh [1] [0]).2 = Outcome.indexOutOfRange
    ∧ (SPI.Tx envTxFullRxReady StateMachine.fresh [1] [0]).1.iterations = 1
    ∧ (SPI.Tx envTxFullRxReady StateMachine.fresh [1] [0]).1.rxRemain = 0
    ∧ (SPI.Tx envTxFullRxReady StateMachine.fresh [1] [0]).1.txRemain = 1
    ∧ (SPI.Tx envTxFullRxReady StateMachine.fresh [1] [0]).1.r.length
        - (SPI.Tx envTxFullRxReady StateMachine.fresh [1] [0]).1.rxRemain
        = (SPI.Tx envTxFullRxReady StateMachine.fresh [1] [0]).1.r.length
    ∧ txPuts (SPI.Tx envTxFullRxReady StateMachine.fresh [1] [0]).1.sm.trace = []
    ∧ rxGets (SPI.Tx envTxFullRxReady StateMachine.fresh [1] [0]).1.sm.trace = [0x5A, 0x5A] := by
  decide

/-! ## Theorems: block control register -/

/-- Bit clear as exclusive or with the common bits. -/
theorem bitClear_eq_xor_and (m v : Nat) : bitClear m v = m ^^^ (m &&& v) := by
  apply Nat.eq_of_testBit_eq
  intro i
  have hb : (bitClear m v).testBit i = (m.testBit i && !v.testBit i) := by
    simp [bitClear, Nat.testBit_bitwise]
  rw [hb, Nat.testBit_xor, Nat.testBit_and]
  cases m.testBit i <;> cases v.testBit i <;> rfl

/-- Clearing no bit changes nothing. -/
theorem bitClear_zero (m : Nat) : bitClear m 0 = m := by
  rw [bitClear_eq_xor_and]; simp

/-- When the mask shifted by `pos` has no bit left in 32 bits, `ReplaceBits` only adds
the bits of the shifted value. -/
theorem ReplaceBits_mask_shifted_out (old value mask pos : Nat)
    (hmask : uint32 (mask <<< pos) = 0) (hold : old < 2 ^ 32) (hval : value <<< pos < 2 ^ 32) :
    ReplaceBits old value mask pos = old ||| (value <<< pos) := by
  have hv : uint32 (value <<< pos) = value <<< pos := Nat.mod_eq_of_lt hval
  rw [ReplaceBits, hmask, bitClear_zero, hv]
  exact Nat.mod_eq_of_lt (Nat.or_lt_two_pow hold hval)

/-- C12 (the code at failing inputs).  `SetNextPIOMask` and `SetPrevPIOMask` pass the
in-place mask `_Msk` together with `_Pos` to `ReplaceBits`, which shifts the mask by
`pos` again.  With the RP2350 constants (positions 20 and 16) the shifted mask leaves
the 32 bits, so no bit is cleared: the new CTRL is the old one OR `mask << pos`, and a
call with mask 0 on a field holding `0xF` leaves `0xF` there.  For an in-place mask at
any position from 1 to 28 a call with mask 0 on a full field leaves the field
non-zero. -/
theorem SetPIOMask_does_not_clear_field :
    RP2350.SetNextPIOMask NEXT_PIO_MASK 0x00F00000 0 = 0x00F00000
    ∧ field4 20 (RP2350.SetNextPIOMask NEXT_PIO_MASK 0x00F00000 0) = 0xF
    ∧ RP2350.SetPrevPIOMask PREV_PIO_MASK 0x000F0000 0 = 0x000F0000
    ∧ field4 16 (RP2350.SetPrevPIOMask PREV_PIO_MASK 0x000F0000 0) = 0xF
    ∧ (∀ c m : Nat, c < 2 ^ 32 → m < 16 →
        RP2350.SetNextPIOMask NEXT_PIO_MASK c m = c ||| (m <<< 20))
    ∧ (∀ c m : Nat, c < 2 ^ 32 → m < 16 →
        RP2350.SetPrevPIOMask PREV_PIO_MASK c m = c ||| (m <<< 16))
    ∧ (∀ pos : Nat, 0 < pos → pos ≤ 28 →
        field4 pos (RP2350.SetNextPIOMask (CtrlField.inPlace pos) (0xF <<< pos) 0) ≠ 0
        ∧ field4 pos (RP2350.SetPrevPIOMask (CtrlField.inPlace pos) (0xF <<< pos) 0) ≠ 0) := by
  have next_or : ∀ c m : Nat, c < 2 ^ 32 → m < 16 →
      RP2350.SetNextPIOMask NEXT_PIO_MASK c m = c ||| (m <<< 20) := by
    intro c m hc hm
    apply ReplaceBits_mask_shifted_out c m _ _ (by decide) hc
    rw [Nat.shiftLeft_eq]
    show m * 2 ^ 20 < 2 ^ 32
    omega
  have prev_or : ∀ c m : Nat, c < 2 ^ 32 → m < 16 →
      RP2350.SetPrevPIOMask PREV_PIO_MASK c m = c ||| (m <<< 16) := by
    intro c m hc hm
    apply ReplaceBits_mask_shifted_out c m _ _ (by decide) hc
    rw [Nat.shiftLeft_eq]
    show m * 2 ^ 16 < 2 ^ 32
    omega
  refine ⟨?_, ?_, ?_, ?_, next_or, prev_or, ?_⟩
  · rw [next_or _ _ (by decide) (by decide)]; decide
  · rw [next_or _ _ (by decide) (by decide)]; decide
  · rw [prev_or _ _ (by decide) (by decide)]; decide
  · rw [prev_or _ _ (by decide) (by decide)]; decide
  · intro pos h0 h28
    simp only [RP2350.SetNextPIOMask, RP2350.SetPrevPIOMask, CtrlField.inPlace, ReplaceBits,
      bitClear_eq_xor_and, field4, uint32]
    interval_cases pos <;> decide

/-- The RP2350 constants at work: CTRL holds `0x00300001`, `SetNextPIOMask(4)` leaves
`0x00700001`, the field holds `3 OR 4 = 7` and not 4. -/
theorem SetPIOMask_does_not_clear_field_witness :
    ((0x00300001 : Nat) < 2 ^ 32 ∧ (4 : Nat) < 16)
    ∧ RP2350.SetNextPIOMask NEXT_PIO_MASK 0x00300001 4 = 0x00300001 ||| (4 <<< 20)
    ∧ ((0 : Nat) < 20 ∧ (20 : Nat) ≤ 28)
    ∧ field4 20 (RP2350.SetNextPIOMask (CtrlField.inPlace 20) (0xF <<< 20) 0) ≠ 0 :=
  ⟨by decide,
   SetPIOMask_does_not_clear_field.2.2.2.2.1 0x00300001 4 (by decide) (by decide),
   by decide,
   (SetPIOMask_does_not_clear_field.2.2.2.2.2.2 20 (by decide) (by decide)).1⟩

/-- The bits of the register content `ReplaceBits` stores. -/
theorem ReplaceBits_testBit (old value mask pos i : Nat) :
    (ReplaceBits old value mask pos).testBit i
      = (decide (i < 32) &&
          ((old.testBit i && !(decide (i < 32) && (decide (pos ≤ i) && mask.testBit (i - pos))))
            || (decide (i < 32) && (decide (pos ≤ i) && value.testBit (i - pos))))) := by
  have hb : ∀ a b : Nat, (bitClear a b).testBit i = (a.testBit i && !b.testBit i) := by
    intro a b
    simp [bitClear, Nat.testBit_bitwise]
  simp only [ReplaceBits, uint32, Nat.testBit_mod_two_pow, Nat.testBit_or, hb,
    Nat.testBit_shiftLeft, ge_iff_le]

/-- Called with the mask of the field at position 0 (`0xF`), `ReplaceBits` replaces the
4-bit field at `pos` by `value` and keeps every other bit. -/
theorem ReplaceBits_field (old value pos : Nat) (hold : old < 2 ^ 32) (hval : value < 16)
    (hpos : pos ≤ 28) :
    field4 pos (ReplaceBits old value 0xF pos) = value
    ∧ ∀ i, (i < pos ∨ pos + 4 ≤ i) →
        (ReplaceBits old value 0xF pos).testBit i = old.testBit i := by
  have hF : ∀ j, (0xF : Nat).testBit j = decide (j < 4) := fun j =>
    Nat.testBit_two_pow_sub_one 4 j
  have hv : ∀ j, 4 ≤ j → value.testBit j = false := fun j hj =>
    Nat.testBit_lt_two_pow (Nat.lt_of_lt_of_le hval (Nat.pow_le_pow_right (Nat.succ_pos 1) hj))
  have ho : ∀ j, 32 ≤ j → old.testBit j = false := fun j hj =>
    Nat.testBit_lt_two_pow (Nat.lt_of_lt_of_le hold (Nat.pow_le_pow_right (Nat.succ_pos 1) hj))
  constructor
  · apply Nat.eq_of_testBit_eq
    intro j
    simp only [field4, Nat.testBit_and, Nat.testBit_shiftRight, ReplaceBits_testBit, hF]
    by_cases hj : j < 4
    · have h1 : pos + j < 32 := by omega
      have h2 : pos ≤ pos + j := by omega
      have h3 : pos + j - pos = j := by omega
      simp [h1, h2, h3, hj]
    · have h4 : value.testBit j = false := hv j (by omega)
      simp [hj, h4]
  · intro i hi
    rw [ReplaceBits_testBit, hF]
    by_cases h32 : i < 32
    · rcases hi with hlt | hge
      · have : ¬ pos ≤ i := by omega
        simp [h32, this]
      · have h1 : pos ≤ i := by omega
        have h2 : ¬ i - pos < 4 := by omega
        have h3 : value.testBit (i - pos) = false := hv _ (by omega)
        simp [h32, h1, h2, h3]
    · have := ho i (by omega)
      simp [h32, this]

end Rp2Pio
